import Mathlib

/-! # detect-server: the detection pipeline

A shallow embedding of `system.go`, `detector.go` and the data types of `report.go`.

* Go strings are lists of characters (`Str`).
* Everything the program reads from its host (command outputs, file states, directory
  listings, ping outcomes, the clock) is a field of `World`; a collector is a function
  of the world.
* A Go function returning `(T, error)` returns `Res T`: a value, an error, or a run-time
  panic (index out of range), which nothing in the program recovers.
* `float64` is embedded exactly (`F64`): finite binary64 values with round-to-nearest-even.
-/

namespace DetectServer

/-- A Go string, as the list of its characters. -/
abbrev Str := List Char

/-- A Go `error` value. -/
inductive Err where
  /-- an error reported by the operating system (failed command, missing file, ...) -/
  | os (info : String)
  /-- an error made with `fmt.Errorf` -/
  | text (msg : String)
  /-- an error returned by `fmt.Sscanf` -/
  | scan
deriving DecidableEq, Repr

/-- Outcome of a Go function returning `(T, error)`. -/
inductive Res (α : Type) where
  /-- returned `(a, nil)` -/
  | ok (a : α)
  /-- returned `(zero value, e)` -/
  | err (e : Err)
  /-- did not return: run-time panic -/
  | crash
deriving DecidableEq, Repr

/-- Outcomes of host operations can be compared. -/
instance {ε α : Type} [DecidableEq ε] [DecidableEq α] : DecidableEq (Except ε α)
  | .ok a, .ok b => if h : a = b then isTrue (by rw [h]) else isFalse (by simp [h])
  | .error a, .error b => if h : a = b then isTrue (by rw [h]) else isFalse (by simp [h])
  | .ok _, .error _ => isFalse (by simp)
  | .error _, .ok _ => isFalse (by simp)

/-! ## Package `strings` -/

namespace strings

/-- The characters `unicode.IsSpace` accepts. -/
def isSpace (c : Char) : Bool :=
  c = '\t' || c = '\n' || c = '\x0b' || c = '\x0c' || c = '\r' || c = ' ' ||
  c.toNat = 0x85 || c.toNat = 0xA0 || c.toNat = 0x1680 ||
  (0x2000 ≤ c.toNat && c.toNat ≤ 0x200A) ||
  c.toNat = 0x2028 || c.toNat = 0x2029 || c.toNat = 0x202F || c.toNat = 0x205F ||
  c.toNat = 0x3000

/-- The call `strings.Split(s, "\n")`: the segments between newlines, never an empty list. -/
def SplitLines : Str → List Str
  | [] => [[]]
  | c :: cs =>
    if c = '\n' then [] :: SplitLines cs
    else
      match SplitLines cs with
      | [] => [[c]]
      | l :: ls => (c :: l) :: ls

/-- The function `strings.HasPrefix`. -/
def HasPrefix (s pre : Str) : Bool := pre.isPrefixOf s

/-- The function `strings.HasSuffix`. -/
def HasSuffix (s suf : Str) : Bool := suf.isSuffixOf s

/-- The function `strings.Contains`. -/
def Contains : Str → Str → Bool
  | [], sub => sub.isEmpty
  | c :: cs, sub => sub.isPrefixOf (c :: cs) || Contains cs sub

/-- The function `strings.Fields`: the maximal runs of non-space characters. -/
def Fields : Str → List Str
  | [] => []
  | c :: cs =>
    if isSpace c then Fields cs
    else
      match cs with
      | [] => [[c]]
      | d :: _ =>
        if isSpace d then [c] :: Fields cs
        else
          match Fields cs with
          | [] => [[c]]
          | f :: fs => (c :: f) :: fs

/-- The function `strings.TrimPrefix`. -/
def TrimPrefix (s pre : Str) : Str :=
  if HasPrefix s pre then s.drop pre.length else s

/-- The function `strings.TrimSuffix`. -/
def TrimSuffix (s suf : Str) : Str :=
  if HasSuffix s suf then s.take (s.length - suf.length) else s

/-- The function `strings.Trim(s, cutset)`: drops leading and trailing characters of the cutset. -/
def Trim (s cutset : Str) : Str :=
  ((s.dropWhile (fun c => cutset.contains c)).reverse.dropWhile
    (fun c => cutset.contains c)).reverse

/-- The function `strings.TrimSpace`. -/
def TrimSpace (s : Str) : Str :=
  ((s.dropWhile isSpace).reverse.dropWhile isSpace).reverse

end strings

/-- The text `fmt.Sprintf("%d", n)` for a non-negative `n`. -/
def fmtInt (n : Nat) : Str := (Nat.repr n).toList

/-! ## Data model (`report.go`) -/

/-- A `time.Time`, as a count of clock ticks; `0` is the zero time value. -/
abbrev Time := Nat

/-- The struct `BasicInfo`. -/
structure BasicInfo where
  HardwareInfo : Str
  OSInfo : Str
  SoftwareInfo : Str
deriving DecidableEq, Repr

/-- The struct `FileIntegrity`. -/
structure FileIntegrity where
  BinFiles : List Str
  LibFiles : List Str
deriving DecidableEq, Repr

/-- The struct `RunningAssets`. -/
structure RunningAssets where
  OpenPorts : List Str
  Processes : List Str
deriving DecidableEq, Repr

/-- The struct `NetworkSample`. -/
structure NetworkSample where
  Timestamp : Time
  Status : Bool
deriving DecidableEq, Repr

/-- The struct `NetworkStatus`. -/
structure NetworkStatus where
  Connectivity : Bool
  Samples : List NetworkSample
deriving DecidableEq, Repr

/-! ## The type `float64` -/

/-- A binary64 value. A finite value is `(-1)^neg * m * 2^e` in the canonical form of the
format: `2^52 ≤ m < 2^53` and `-1074 ≤ e ≤ 971`, or `m < 2^52` and `e = -1074`
(subnormal numbers and the two zeros). -/
inductive F64 where
  | fin (neg : Bool) (m : Nat) (e : Int)
  | inf (neg : Bool)
  | nan
deriving DecidableEq, Repr

namespace F64

/-- Floor of the binary logarithm of `n ≥ 1`, given fuel `≥ log2 n`. -/
def log2Fuel : Nat → Nat → Nat
  | 0, _ => 0
  | fuel + 1, n => if n < 2 then 0 else log2Fuel fuel (n / 2) + 1

/-- Floor of the binary logarithm of `n ≥ 1`. -/
def log2 (n : Nat) : Nat := log2Fuel n n

/-- The integer `e` with `2^e ≤ p/q < 2^(e+1)`, for `p, q ≥ 1`. -/
def floorLog2 (p q : Nat) : Int :=
  let d : Int := (log2 p : Int) - (log2 q : Int)
  if q * 2 ^ d.toNat ≤ p * 2 ^ (-d).toNat then d else d - 1

/-- Rounds the rational `p/q ≥ 0` to the nearest binary64 magnitude `m * 2^e`, ties to
even; `none` when the result overflows the format. -/
def roundMag (p q : Nat) : Option (Nat × Int) :=
  if p = 0 then some (0, -1074)
  else
    let k : Int := max (floorLog2 p q) (-1022) - 52
    let num := p * 2 ^ (-k).toNat
    let den := q * 2 ^ k.toNat
    let n0 := num / den
    let r := num % den
    let n := if 2 * r < den then n0 else if den < 2 * r then n0 + 1 else n0 + n0 % 2
    let k1 : Int := if n = 2 ^ 53 then k + 1 else k
    let n1 := if n = 2 ^ 53 then 2 ^ 52 else n
    if k1 > 971 then none else some (n1, k1)

/-- The binary64 value nearest to `(-1)^neg * p/q`; an overflow gives an infinity. -/
def round (neg : Bool) (p q : Nat) : F64 :=
  match roundMag p q with
  | some (m, e) => fin neg m e
  | none => inf neg

/-- The float64 value of an untyped integer constant. -/
def ofNat (n : Nat) : F64 := round false n 1

/-- The float64 value of the untyped decimal constant `p/q`. -/
def ofRatio (p q : Nat) : F64 := round false p q

/-- The signed integer `(-1)^neg * m`. -/
def signed (neg : Bool) (m : Nat) : Int := if neg then -(m : Int) else (m : Int)

/-- Unary minus. -/
def neg : F64 → F64
  | fin s m e => fin (!s) m e
  | inf s => inf (!s)
  | nan => nan

/-- The operator `+` of float64. -/
def add : F64 → F64 → F64
  | nan, _ => nan
  | _, nan => nan
  | inf s, inf t => if s = t then inf s else nan
  | inf s, fin _ _ _ => inf s
  | fin _ _ _, inf t => inf t
  | fin s1 m1 e1, fin s2 m2 e2 =>
    let e := min e1 e2
    let sum : Int := signed s1 (m1 * 2 ^ (e1 - e).toNat) + signed s2 (m2 * 2 ^ (e2 - e).toNat)
    if sum = 0 then fin (s1 && s2) 0 (-1074)
    else round (decide (sum < 0)) (sum.natAbs * 2 ^ e.toNat) (2 ^ (-e).toNat)

/-- The operator `-` of float64. -/
def sub (a b : F64) : F64 := add a (neg b)

/-- The operator `*` of float64. -/
def mul : F64 → F64 → F64
  | nan, _ => nan
  | _, nan => nan
  | inf s, inf t => inf (xor s t)
  | inf s, fin t m _ => if m = 0 then nan else inf (xor s t)
  | fin s m _, inf t => if m = 0 then nan else inf (xor s t)
  | fin s1 m1 e1, fin s2 m2 e2 =>
    round (xor s1 s2) (m1 * m2 * 2 ^ (e1 + e2).toNat) (2 ^ (-(e1 + e2)).toNat)

/-- The operator `/` of float64. -/
def div : F64 → F64 → F64
  | nan, _ => nan
  | _, nan => nan
  | inf _, inf _ => nan
  | inf s, fin t _ _ => inf (xor s t)
  | fin s _ _, inf t => fin (xor s t) 0 (-1074)
  | fin s1 m1 e1, fin s2 m2 e2 =>
    if m2 = 0 then (if m1 = 0 then nan else inf (xor s1 s2))
    else round (xor s1 s2) (m1 * 2 ^ (e1 - e2).toNat) (m2 * 2 ^ (e2 - e1).toNat)

/-- The operator `<=` of float64 (false when an operand is NaN). -/
def le : F64 → F64 → Bool
  | nan, _ => false
  | _, nan => false
  | inf s, inf t => s || !t
  | inf s, fin _ _ _ => s
  | fin _ _ _, inf t => !t
  | fin s1 m1 e1, fin s2 m2 e2 =>
    let e := min e1 e2
    decide (signed s1 (m1 * 2 ^ (e1 - e).toNat) ≤ signed s2 (m2 * 2 ^ (e2 - e).toNat))

/-- The operator `<` of float64 (false when an operand is NaN). -/
def lt (a b : F64) : Bool := le a b && !le b a

/-- The value lies in the closed interval `[0, 100]`. -/
def inPercentRange (x : F64) : Prop := le (ofNat 0) x = true ∧ le x (ofNat 100) = true

instance (x : F64) : Decidable (inPercentRange x) := by
  unfold inPercentRange; exact inferInstance

end F64

/-! ## The host -/

/-- An entry returned by `os.ReadDir`. -/
structure DirEntry where
  Name : Str
  IsDir : Bool
deriving DecidableEq, Repr

/-- Everything a detection run reads from its host. Each command is run at most once in
a run, except `ping`, which is run once per sample. -/
structure World where
  /-- outcome of `exec.Command(argv...).Output()` -/
  output : List String → Except Err Str
  /-- whether `os.Stat(path)` succeeds -/
  stat : String → Bool
  /-- outcome of `os.Open(path)` and the content then read from the file -/
  openFile : String → Except Err Str
  /-- whether `exec.LookPath(name)` succeeds -/
  lookPath : String → Bool
  /-- outcome of `os.ReadDir(dir)` -/
  readDir : String → Except Err (List DirEntry)
  /-- whether the ping of sample `i` exits with status 0 -/
  ping : Nat → Bool
  /-- the value of `time.Now()` when sample `i` is taken -/
  now : Nat → Time
  /-- what `fmt.Sscanf(s, "%f", &f)` makes of a number token written with hexadecimal
  digits, digit-separating underscores or a binary exponent: forms of Go number syntax
  that are not embedded here and are left to the host -/
  scanOther : Str → Except Err F64

/-! ## Connectivity (`checkNetworkStatus`) -/

/-- The sampling loop of `checkNetworkStatus`: samples `i, i+1, ..., i+n-1`. -/
def takeSamples (w : World) : Nat → Nat → List NetworkSample
  | _, 0 => []
  | i, n + 1 => { Timestamp := w.now i, Status := w.ping i } :: takeSamples w (i + 1) n

/-- The counting loop of `checkNetworkStatus`. -/
def successCount (samples : List NetworkSample) : Nat :=
  samples.foldl (fun n s => if s.Status then n + 1 else n) 0

/-- The function `checkNetworkStatus`. -/
def checkNetworkStatus (w : World) : Res NetworkStatus :=
  let samples := takeSamples w 0 5
  .ok { Connectivity := decide (successCount samples ≥ 3), Samples := samples }

/-! ## File inventory (`checkFileIntegrity`, `listFiles`) -/

/-- The function `listFiles`. -/
def listFiles (w : World) (dir : String) : Res (List Str) :=
  match w.readDir dir with
  | .error e => .err e
  | .ok entries => .ok ((entries.filter (fun entry => !entry.IsDir)).map (fun entry => entry.Name))

/-- The function `checkFileIntegrity`. -/
def checkFileIntegrity (w : World) : Res FileIntegrity :=
  match listFiles w "/bin" with
  | .err e => .err e
  | .crash => .crash
  | .ok binFiles =>
    match listFiles w "/lib" with
    | .err e => .err e
    | .crash => .crash
    | .ok libFiles => .ok { BinFiles := binFiles, LibFiles := libFiles }

/-! ## Running assets (`getRunningAssets`, `getOpenPorts`, `getProcesses`) -/

/-- The loop of `getOpenPorts` over the lines of the tool output. -/
def portsOfLines : List Str → List Str
  | [] => []
  | line :: rest =>
    if strings.Contains line "LISTEN".toList then
      match (strings.Fields line)[3]? with
      | some field => field :: portsOfLines rest
      | none => portsOfLines rest
    else portsOfLines rest

/-- The function `getOpenPorts`. -/
def getOpenPorts (w : World) : Res (List Str) :=
  match w.output ["ss", "-tuln"] with
  | .ok output => .ok (portsOfLines (strings.SplitLines output))
  | .error _ =>
    match w.output ["netstat", "-tuln"] with
    | .error err => .err err
    | .ok output => .ok (portsOfLines (strings.SplitLines output))

/-- The loop of `getProcesses` over the lines after the header line. -/
def processesOfLines : List Str → List Str
  | [] => []
  | line :: rest =>
    if line ≠ [] then
      match (strings.Fields line)[10]? with
      | some field => field :: processesOfLines rest
      | none => processesOfLines rest
    else processesOfLines rest

/-- The function `getProcesses`. -/
def getProcesses (w : World) : Res (List Str) :=
  match w.output ["ps", "aux"] with
  | .error err => .err err
  | .ok output => .ok (processesOfLines ((strings.SplitLines output).drop 1))

/-- The function `getRunningAssets`. -/
def getRunningAssets (w : World) : Res RunningAssets :=
  match getOpenPorts w with
  | .err e => .err e
  | .crash => .crash
  | .ok ports =>
    match getProcesses w with
    | .err e => .err e
    | .crash => .crash
    | .ok processes => .ok { OpenPorts := ports, Processes := processes }

/-! ## Abnormal events (`checkAbnormalEvents`) -/

/-- One of the two blocks of `checkAbnormalEvents`: the events added for the log `path`. -/
def logEvents (w : World) (path : String) : List Str :=
  if w.stat path then
    match w.output ["grep", "Failed password", path] with
    | .error _ => []
    | .ok output =>
      let lines := strings.SplitLines output
      if lines.length > 1 then
        ["Found ".toList ++ fmtInt (lines.length - 1) ++ " SSH failed login attempts".toList]
      else []
  else []

/-- The function `checkAbnormalEvents`. -/
def checkAbnormalEvents (w : World) : Res (List Str) :=
  .ok (logEvents w "/var/log/auth.log" ++ logEvents w "/var/log/secure")

/-! ## Basic information (`getBasicInfo` and its parts) -/

/-- The function `getHardwareInfo`. Indexing a line that is not there panics. -/
def getHardwareInfo (w : World) : Res Str :=
  let cpu :=
    match w.output ["lscpu"] with
    | .ok out => Except.ok out
    | .error _ => w.output ["cat", "/proc/cpuinfo"]
  match cpu with
  | .error _ => .ok "Unknown".toList
  | .ok cpuInfo =>
    let mem :=
      match w.output ["free", "-h"] with
      | .ok out => Except.ok out
      | .error _ => w.output ["cat", "/proc/meminfo"]
    match mem with
    | .error _ => .ok "Unknown".toList
    | .ok memInfo =>
      match w.output ["df", "-h"] with
      | .error _ => .ok "Unknown".toList
      | .ok diskInfo =>
        match (strings.SplitLines cpuInfo)[0]?, (strings.SplitLines memInfo)[1]?,
            (strings.SplitLines diskInfo)[1]? with
        | some c, some m, some d =>
          .ok ("CPU: ".toList ++ c ++ ", Memory: ".toList ++ m ++ ", Disk: ".toList ++ d)
        | _, _, _ => .crash

/-- The constant `bufio.MaxScanTokenSize`. -/
def maxScanTokenSize : Nat := 64 * 1024

/-- Length of a string in bytes (UTF-8). -/
def byteLen (s : Str) : Nat := (s.map Char.utf8Size).sum

/-- The helper `dropCR` of `bufio.ScanLines`. -/
def dropCR (line : Str) : Str :=
  if line.getLast? = some '\r' then line.dropLast else line

/-- The lines a `bufio.Scanner` delivers from the segments of a file: each segment without
its trailing carriage return; no final empty segment; scanning stops (the error is
ignored by the caller) at a segment that does not fit the scanner's buffer. -/
def scanSegments : List Str → List Str
  | [] => []
  | [last] =>
    if last = [] then [] else if byteLen last < maxScanTokenSize then [dropCR last] else []
  | seg :: rest =>
    if byteLen seg < maxScanTokenSize then dropCR seg :: scanSegments rest else []

/-- The loop of `getOSInfo` over the scanned lines, from the current `(osName, osVersion)`. -/
def scanOSRelease : List Str → Str × Str → Str × Str
  | [], acc => acc
  | line :: rest, (osName, osVersion) =>
    let osName :=
      if strings.HasPrefix line "NAME=".toList then
        strings.Trim (strings.TrimPrefix line "NAME=".toList) "\"".toList
      else osName
    let osVersion :=
      if strings.HasPrefix line "VERSION=".toList then
        strings.Trim (strings.TrimPrefix line "VERSION=".toList) "\"".toList
      else osVersion
    scanOSRelease rest (osName, osVersion)

/-- The fallback of `getOSInfo`: `uname -a`. -/
def unameInfo (w : World) : Res Str :=
  match w.output ["uname", "-a"] with
  | .error _ => .ok "Unknown".toList
  | .ok uname => .ok (strings.TrimSpace uname)

/-- The function `getOSInfo`. -/
def getOSInfo (w : World) : Res Str :=
  if w.stat "/etc/os-release" then
    match w.openFile "/etc/os-release" with
    | .error _ => .ok "Unknown".toList
    | .ok content =>
      let (osName, osVersion) :=
        scanOSRelease (scanSegments (strings.SplitLines content)) ([], [])
      if osName ≠ [] ∧ osVersion ≠ [] then .ok (osName ++ " ".toList ++ osVersion)
      else unameInfo w
  else unameInfo w

/-- The function `getSoftwareInfo`. -/
def getSoftwareInfo (w : World) : Res Str :=
  let cmd : Option (List String) :=
    if w.lookPath "dpkg" then some ["dpkg", "-l"]
    else if w.lookPath "rpm" then some ["rpm", "-qa"]
    else if w.lookPath "pacman" then some ["pacman", "-Q"]
    else none
  match cmd with
  | none => .ok "Unknown package manager".toList
  | some argv =>
    match w.output argv with
    | .error _ => .ok "Error getting software info".toList
    | .ok output =>
      .ok (fmtInt ((strings.SplitLines output).length - 1) ++ " packages installed".toList)

/-- The function `getBasicInfo`. -/
def getBasicInfo (w : World) : Res BasicInfo :=
  match getHardwareInfo w with
  | .err e => .err e
  | .crash => .crash
  | .ok hardware =>
    match getOSInfo w with
    | .err e => .err e
    | .crash => .crash
    | .ok osInfo =>
      match getSoftwareInfo w with
      | .err e => .err e
      | .crash => .crash
      | .ok software =>
        .ok { HardwareInfo := hardware, OSInfo := osInfo, SoftwareInfo := software }

/-! ## Reading numbers (`parseFloat`, that is `fmt.Sscanf(s, "%f", &f)`) -/

/-- The reader state of `floatToken`: the characters accepted so far and the input left. -/
structure Scan where
  buf : Str
  rest : Str

/-- The method `accept`: consumes the next character when it is one of `ok`. -/
def Scan.accept (sc : Scan) (ok : String) : Scan × Bool :=
  match sc.rest with
  | [] => (sc, false)
  | c :: cs => if ok.toList.contains c then ({ buf := sc.buf ++ [c], rest := cs }, true)
    else (sc, false)

/-- The loop `for s.accept(ok) {}`. -/
def Scan.acceptAll (sc : Scan) (ok : String) : Scan :=
  { buf := sc.buf ++ sc.rest.takeWhile (fun c => ok.toList.contains c),
    rest := sc.rest.dropWhile (fun c => ok.toList.contains c) }

/-- The method `floatToken` of package `fmt`: the longest prefix of the input that looks
like a floating-point number (the letters consumed by a failed `NaN` or `Inf` test stay
in the token). -/
def floatToken (input : Str) : Str :=
  let s0 : Scan := { buf := [], rest := input }
  let (s1, n1) := s0.accept "nN"
  let (s2, n2) := if n1 then s1.accept "aA" else (s1, false)
  let (s3, n3) := if n2 then s2.accept "nN" else (s2, false)
  if n3 then s3.buf
  else
    let (s4, _) := s3.accept "+-"
    let (s5, i1) := s4.accept "iI"
    let (s6, i2) := if i1 then s5.accept "nN" else (s5, false)
    let (s7, i3) := if i2 then s6.accept "fF" else (s6, false)
    if i3 then s7.buf
    else
      let (s8, z) := s7.accept "0"
      let (s9, x) := if z then s8.accept "xX" else (s8, false)
      let digits := if x then "0123456789aAbBcCdDeEfF_" else "0123456789_"
      let exp := if x then "pP" else "eEpP"
      let s10 := s9.acceptAll digits
      let (s11, dot) := s10.accept "."
      let s12 := if dot then s11.acceptAll digits else s11
      let (s13, ex) := s12.accept exp
      let s14 := if ex then (s13.accept "+-").1.acceptAll "0123456789_" else s13
      s14.buf

/-- The number written by a string of decimal digits. -/
def digitsVal (ds : Str) : Nat := ds.foldl (fun n c => 10 * n + (c.toNat - 48)) 0

/-- The exponent loop of `readFloat` in package `strconv`: digits are accumulated while the
exponent is below 10000. -/
def expVal (ds : Str) : Nat :=
  ds.foldl (fun e c => if e < 10000 then e * 10 + (c.toNat - 48) else e) 0

/-- An optional leading sign: whether it is `-`, and the rest. -/
def readSign : Str → Bool × Str
  | '+' :: r => (false, r)
  | '-' :: r => (true, r)
  | r => (false, r)

/-- The function `readFloat` of package `strconv` on a decimal token: sign, digits with at
most one point, optional exponent. Gives the sign, the digits as an integer and the power
of ten; `none` is a syntax error (no digit, or an exponent without digits, or characters
left over). -/
def readFloat (tok : Str) : Option (Bool × Nat × Int) :=
  let (neg, s) := readSign tok
  let ip := s.takeWhile Char.isDigit
  let s1 := s.dropWhile Char.isDigit
  let (fp, s2) :=
    match s1 with
    | '.' :: r => (r.takeWhile Char.isDigit, r.dropWhile Char.isDigit)
    | r => ([], r)
  if ip = [] ∧ fp = [] then none
  else
    match s2 with
    | [] => some (neg, digitsVal (ip ++ fp), -(fp.length : Int))
    | c :: r =>
      if c = 'e' ∨ c = 'E' then
        let (eneg, ds) := readSign r
        if ds = [] ∨ ¬ ds.all Char.isDigit = true then none
        else
          some (neg, digitsVal (ip ++ fp),
            (if eneg then -(expVal ds : Int) else (expVal ds : Int)) - (fp.length : Int))
      else none

/-- The function `strconv.ParseFloat(tok, 64)` on a token without hexadecimal digits,
underscores or binary exponent: `NaN`, a signed `Inf`, or a decimal number rounded to
the nearest float64; a value out of range is an error. -/
def ParseFloat (tok : Str) : Res F64 :=
  let low := tok.map Char.toLower
  if low = "nan".toList then .ok F64.nan
  else if low = "inf".toList ∨ low = "+inf".toList then .ok (F64.inf false)
  else if low = "-inf".toList then .ok (F64.inf true)
  else
    match readFloat tok with
    | none => .err .scan
    | some (neg, mant, exp10) =>
      match F64.roundMag (mant * 10 ^ exp10.toNat) (10 ^ (-exp10).toNat) with
      | none => .err .scan
      | some (m, e) => .ok (F64.fin neg m e)

/-- The function `parseFloat`: `fmt.Sscanf(s, "%f", &f)`. Leading space is skipped (a
newline there is an error), the input must not be empty, the number token is read and
converted, and what follows the token is ignored. -/
def parseFloat (w : World) (s : Str) : Res F64 :=
  match s.dropWhile (fun c => strings.isSpace c && c != '\n') with
  | [] => .err .scan
  | c :: cs =>
    if c = '\n' then .err .scan
    else
      let tok := floatToken (c :: cs)
      if tok.any (fun ch => "_xXpP".toList.contains ch) then
        match w.scanOther tok with
        | .ok f => .ok f
        | .error e => .err e
      else ParseFloat tok

/-! ## Utilization (`getUSEMetrics` and its parts) -/

/-- The struct `USEMetrics`. -/
structure USEMetrics where
  CPUUsage : F64
  MemoryUsage : F64
  DiskUsage : F64
  NetworkUsage : F64
  CPUSaturation : F64
  MemorySaturation : F64
  DiskSaturation : F64
  NetworkSaturation : F64
  AbnormalEvents : List Str
deriving DecidableEq, Repr

/-- The inner loop of `getCPUUsage`: the field before the first field of index `> 0` that
contains `id`; `prev` is the field before `fields`. -/
def idleBefore (prev : Str) : List Str → Option Str
  | [] => none
  | field :: rest =>
    if strings.Contains field "id".toList then some prev else idleBefore field rest

/-- The inner loop of `getCPUUsage` on the fields of a line. -/
def idleField : List Str → Option Str
  | [] => none
  | first :: rest => idleBefore first rest

/-- The outer loop of `getCPUUsage` over the lines of the `top` output. -/
def cpuOfLines (w : World) : List Str → Res F64
  | [] => .err (.text "could not parse CPU usage")
  | line :: rest =>
    if strings.Contains line "%Cpu(s)".toList then
      match idleField (strings.Fields line) with
      | some tok =>
        match parseFloat w tok with
        | .ok idle => .ok (F64.sub (F64.ofNat 100) idle)
        | .err e => .err e
        | .crash => .crash
      | none => cpuOfLines w rest
    else cpuOfLines w rest

/-- The function `getCPUUsage`. -/
def getCPUUsage (w : World) : Res F64 :=
  match w.output ["top", "-bn1"] with
  | .error err => .err err
  | .ok output => cpuOfLines w (strings.SplitLines output)

/-- The function `getMemoryUsage`. -/
def getMemoryUsage (w : World) : Res F64 :=
  match w.output ["free"] with
  | .error err => .err err
  | .ok output =>
    let lines := strings.SplitLines output
    if lines.length < 3 then .err (.text "unexpected output from free command")
    else
      let fields := strings.Fields (lines.getD 1 [])
      if fields.length < 3 then .err (.text "unexpected output from free command")
      else
        match parseFloat w (fields.getD 1 []) with
        | .err e => .err e
        | .crash => .crash
        | .ok total =>
          match parseFloat w (fields.getD 2 []) with
          | .err e => .err e
          | .crash => .crash
          | .ok used => .ok (F64.mul (F64.div used total) (F64.ofNat 100))

/-- The function `getDiskUsage`. -/
def getDiskUsage (w : World) : Res F64 :=
  match w.output ["df", "/"] with
  | .error err => .err err
  | .ok output =>
    let lines := strings.SplitLines output
    if lines.length < 2 then .err (.text "unexpected output from df command")
    else
      let fields := strings.Fields (lines.getD 1 [])
      if fields.length < 5 then .err (.text "unexpected output from df command")
      else
        match parseFloat w (strings.TrimSuffix (fields.getD 4 []) "%".toList) with
        | .err e => .err e
        | .crash => .crash
        | .ok usage => .ok usage

/-- The function `getNetworkUsage`: the placeholder value 45.5. -/
def getNetworkUsage (_w : World) : Res F64 := .ok (F64.ofRatio 455 10)

/-- The function `getUSEMetrics`. -/
def getUSEMetrics (w : World) : Res USEMetrics :=
  match getCPUUsage w with
  | .err e => .err e
  | .crash => .crash
  | .ok cpuUsage =>
    match getMemoryUsage w with
    | .err e => .err e
    | .crash => .crash
    | .ok memoryUsage =>
      match getDiskUsage w with
      | .err e => .err e
      | .crash => .crash
      | .ok diskUsage =>
        match getNetworkUsage w with
        | .err e => .err e
        | .crash => .crash
        | .ok networkUsage =>
          match checkAbnormalEvents w with
          | .err e => .err e
          | .crash => .crash
          | .ok abnormalEvents =>
            .ok { CPUUsage := cpuUsage
                  MemoryUsage := memoryUsage
                  DiskUsage := diskUsage
                  NetworkUsage := networkUsage
                  CPUSaturation := F64.mul cpuUsage (F64.ofRatio 8 10)
                  MemorySaturation := F64.mul memoryUsage (F64.ofRatio 9 10)
                  DiskSaturation := F64.mul diskUsage (F64.ofRatio 7 10)
                  NetworkSaturation := F64.mul networkUsage (F64.ofRatio 6 10)
                  AbnormalEvents := abnormalEvents }

/-! ## The coordinator (`detector.go`) -/

/-- The struct `Report`. The field `ReportType` is the Go field `Type`; the pointer fields
are options, `none` being the nil pointer. -/
structure Report where
  ReportType : Str
  Timestamp : Time
  BasicInfo : Option BasicInfo
  USEMetrics : Option USEMetrics
  FileIntegrity : Option FileIntegrity
  RunningAssets : Option RunningAssets
  NetworkStatus : Option NetworkStatus
deriving DecidableEq, Repr

/-- The collectors a detector can call. -/
inductive Step where
  | basicInfo
  | useMetrics
  | fileIntegrity
  | runningAssets
  | networkStatus
deriving DecidableEq, Repr

/-- A run of a detector: what `Detect` returns, and the collectors it called, in call order. -/
structure Run (α : Type) where
  result : Res α
  ran : List Step
deriving DecidableEq, Repr

/-- A call of the collector `s`, whose outcome is `r`. -/
def Run.call {α : Type} (s : Step) (r : Res α) : Run α := { result := r, ran := [s] }

/-- The statement `return report, nil`. -/
def Run.ret {α : Type} (a : α) : Run α := { result := .ok a, ran := [] }

/-- Sequencing with `if err != nil { return nil, err }`: the rest of the function runs
only on a value. -/
def Run.andThen {α β : Type} (x : Run α) (f : α → Run β) : Run β :=
  match x.result with
  | .ok a => { result := (f a).result, ran := x.ran ++ (f a).ran }
  | .err e => { result := .err e, ran := x.ran }
  | .crash => { result := .crash, ran := x.ran }

/-- The outcome of a call, its value forgotten. -/
def Res.forget {α : Type} : Res α → Res Unit
  | .ok _ => .ok ()
  | .err e => .err e
  | .crash => .crash

/-- The outcome of collector `s` in world `w`, its value forgotten. -/
def outcome (w : World) : Step → Res Unit
  | .basicInfo => (getBasicInfo w).forget
  | .useMetrics => (getUSEMetrics w).forget
  | .fileIntegrity => (checkFileIntegrity w).forget
  | .runningAssets => (getRunningAssets w).forget
  | .networkStatus => (checkNetworkStatus w).forget

/-- The method `QuickDetector.Detect`. The report is created with its `Type` only; the
other fields start at their zero values. -/
def QuickDetector.Detect (w : World) : Run Report :=
  let report : Report :=
    { ReportType := "Quick Detection".toList, Timestamp := 0, BasicInfo := none,
      USEMetrics := none, FileIntegrity := none, RunningAssets := none, NetworkStatus := none }
  (Run.call .basicInfo (getBasicInfo w)).andThen fun basicInfo =>
  let report := { report with BasicInfo := some basicInfo }
  (Run.call .useMetrics (getUSEMetrics w)).andThen fun useMetrics =>
  let report := { report with USEMetrics := some useMetrics }
  (Run.call .fileIntegrity (checkFileIntegrity w)).andThen fun fileIntegrity =>
  let report := { report with FileIntegrity := some fileIntegrity }
  Run.ret report

/-- The method `MoreDetector.Detect`. -/
def MoreDetector.Detect (w : World) : Run Report :=
  let report : Report :=
    { ReportType := "More Detection".toList, Timestamp := 0, BasicInfo := none,
      USEMetrics := none, FileIntegrity := none, RunningAssets := none, NetworkStatus := none }
  (Run.call .basicInfo (getBasicInfo w)).andThen fun basicInfo =>
  let report := { report with BasicInfo := some basicInfo }
  (Run.call .useMetrics (getUSEMetrics w)).andThen fun useMetrics =>
  let report := { report with USEMetrics := some useMetrics }
  (Run.call .fileIntegrity (checkFileIntegrity w)).andThen fun fileIntegrity =>
  let report := { report with FileIntegrity := some fileIntegrity }
  (Run.call .runningAssets (getRunningAssets w)).andThen fun runningAssets =>
  let report := { report with RunningAssets := some runningAssets }
  (Run.call .networkStatus (checkNetworkStatus w)).andThen fun networkStatus =>
  let report := { report with NetworkStatus := some networkStatus }
  Run.ret report

/-- The collectors of a quick detection, in run order. -/
def quickOrder : List Step := [.basicInfo, .useMetrics, .fileIntegrity]

/-- The collectors of a more detection, in run order. -/
def moreOrder : List Step :=
  [.basicInfo, .useMetrics, .fileIntegrity, .runningAssets, .networkStatus]

/-! ## Recorded hosts -/

/-- Recorded output of `top -bn1`, idle 82.0. -/
def topText : Str :=
  ("top - 10:00:00 up 1 day,  1 user,  load average: 0.10, 0.20, 0.30\n" ++
   "Tasks: 100 total,   1 running,  99 sleeping,   0 stopped,   0 zombie\n" ++
   "%Cpu(s):  9.0 us,  9.0 sy,  0.0 ni, 82.0 id,  0.0 wa,  0.0 hi,  0.0 si,  0.0 st\n" ++
   "MiB Mem :   8000.0 total,   6000.0 free,   2000.0 used,      0.0 buff/cache\n").toList

/-- Recorded output of `free`, total 8000 and used 2000. -/
def freeText : Str :=
  ("              total        used        free      shared  buff/cache   available\n" ++
   "Mem:           8000        2000        6000           0           0        6000\n" ++
   "Swap:             0           0           0\n").toList

/-- Recorded output of `df /`, Use% 45%. -/
def dfText : Str :=
  ("Filesystem     1K-blocks     Used Available Use% Mounted on\n" ++
   "/dev/sda1      100000000 45000000  55000000  45% /\n").toList

/-- Recorded output of `ps aux`. -/
def psText : Str :=
  ("USER PID %CPU %MEM VSZ RSS TTY STAT START TIME COMMAND\n" ++
   "root 1 0.0 0.1 1000 500 ? Ss 10:00 0:01 /sbin/init\n" ++
   "root 77 0.0 0.1 1000 500 ? Ss 10:00 0:00 sshd\n").toList

/-- Recorded output of `ss -tuln`. -/
def ssText : Str :=
  ("Netid State  Recv-Q Send-Q Local Address:Port Peer Address:Port\n" ++
   "tcp   LISTEN 0      128    0.0.0.0:22         0.0.0.0:*\n").toList

/-- A host on which every probe of the recorded scenario answers: no package manager,
no release file, no authentication log, empty `/bin` and `/lib` apart from one file and
one directory. -/
def recordedHost : World where
  output := fun argv =>
    if argv = ["top", "-bn1"] then .ok topText
    else if argv = ["free"] then .ok freeText
    else if argv = ["df", "/"] then .ok dfText
    else if argv = ["ps", "aux"] then .ok psText
    else if argv = ["ss", "-tuln"] then .ok ssText
    else if argv = ["uname", "-a"] then .ok "Linux host 6.1.0 x86_64 GNU/Linux\n".toList
    else .error (.os "exit status 1")
  stat := fun _ => false
  openFile := fun _ => .error (.os "no such file or directory")
  lookPath := fun _ => false
  readDir := fun _ =>
    .ok [{ Name := "sh".toList, IsDir := false }, { Name := "X11".toList, IsDir := true }]
  ping := fun i => decide (i ≠ 1)
  now := fun i => 1000 + 60 * i
  scanOther := fun _ => .error .scan

/-- The utilization metrics of the recorded scenario as the code computes them. The disk
saturation `45.0 * 0.7` is the float64 just below 31.5. -/
def recordedMetrics : USEMetrics :=
  { CPUUsage := F64.ofNat 18
    MemoryUsage := F64.ofNat 25
    DiskUsage := F64.ofNat 45
    NetworkUsage := F64.ofRatio 455 10
    CPUSaturation := F64.ofRatio 144 10
    MemorySaturation := F64.ofRatio 225 10
    DiskSaturation := F64.ofRatio 31499999999999996 1000000000000000
    NetworkSaturation := F64.ofRatio 273 10
    AbnormalEvents := [] }

/-- The report of a quick detection on `recordedHost`. -/
def recordedQuick : Report :=
  { ReportType := "Quick Detection".toList
    Timestamp := 0
    BasicInfo := some
      { HardwareInfo := "Unknown".toList
        OSInfo := "Linux host 6.1.0 x86_64 GNU/Linux".toList
        SoftwareInfo := "Unknown package manager".toList }
    USEMetrics := some recordedMetrics
    FileIntegrity := some { BinFiles := ["sh".toList], LibFiles := ["sh".toList] }
    RunningAssets := none
    NetworkStatus := none }

/-- The report of a more detection on `recordedHost`. -/
def recordedMore : Report :=
  { recordedQuick with
    ReportType := "More Detection".toList
    RunningAssets := some
      { OpenPorts := ["128".toList], Processes := ["/sbin/init".toList, "sshd".toList] }
    NetworkStatus := some
      { Connectivity := true
        Samples :=
          [{ Timestamp := 1000, Status := true }, { Timestamp := 1060, Status := false },
           { Timestamp := 1120, Status := true }, { Timestamp := 1180, Status := true },
           { Timestamp := 1240, Status := true }] } }

/-- The recorded host with an unreadable `/bin`. -/
def unreadableBinHost : World :=
  { recordedHost with
    readDir := fun dir =>
      if dir = "/bin" then .error (.os "open /bin: permission denied")
      else recordedHost.readDir dir }

/-- The recorded host without a working `ss` or `netstat`; `ps aux` still answers. -/
def noSocketToolHost : World :=
  { recordedHost with
    output := fun argv =>
      if argv = ["ss", "-tuln"] then .error (.os "exec: ss: executable file not found")
      else if argv = ["netstat", "-tuln"] then
        .error (.os "exec: netstat: executable file not found")
      else recordedHost.output argv }

/-- The recorded host without a working `top`; `free` and `df` still answer. -/
def noTopHost : World :=
  { recordedHost with
    output := fun argv =>
      if argv = ["top", "-bn1"] then .error (.os "exec: top: executable file not found")
      else recordedHost.output argv }

/-- The text made of the given lines, each followed by a newline. -/
def newlineTerminated : List Str → Str
  | [] => []
  | l :: ls => l ++ '\n' :: newlineTerminated ls

/-- A line of an authentication log that matches the failure marker. -/
def failedLoginLine : Str :=
  "Jan  1 10:00:00 host sshd[100]: Failed password for root from 10.0.0.1 port 22 ssh2".toList

/-- The recorded host with a Debian-style authentication log in which `grep` finds 7
matching lines; there is no RHEL-style log. -/
def authLogHost : World :=
  { recordedHost with
    stat := fun path => decide (path = "/var/log/auth.log")
    output := fun argv =>
      if argv = ["grep", "Failed password", "/var/log/auth.log"] then
        .ok (newlineTerminated (List.replicate 7 failedLoginLine))
      else recordedHost.output argv }

/-- The recorded host with a release file that has neither a `NAME=` nor a `VERSION=`
line. -/
def malformedReleaseHost : World :=
  { recordedHost with
    stat := fun path => decide (path = "/etc/os-release")
    openFile := fun path =>
      if path = "/etc/os-release" then
        .ok "PRETTY_NAME=\"Ubuntu 22.04 LTS\"\nVERSION_ID=\"22.04\"\nID=ubuntu\n".toList
      else .error (.os "no such file or directory") }

/-- The recorded host with utilization outputs out of range: idle 120.0, used 9000 of
total 8000, Use% 150%. -/
def overRangeHost : World :=
  { recordedHost with
    output := fun argv =>
      if argv = ["top", "-bn1"] then
        .ok ("top - 10:00:00 up 1 day\n" ++
          "%Cpu(s):  0.0 us,  0.0 sy,  0.0 ni, 120.0 id,  0.0 wa,  0.0 hi,  0.0 si,  0.0 st\n").toList
      else if argv = ["free"] then
        .ok ("              total        used        free\n" ++
          "Mem:           8000        9000           0\n" ++
          "Swap:             0           0           0\n").toList
      else if argv = ["df", "/"] then
        .ok ("Filesystem     1K-blocks      Used Available Use% Mounted on\n" ++
          "/dev/sda1      100000000 150000000         0 150% /\n").toList
      else recordedHost.output argv }

/-- The recorded host with a `free` output whose total and used are both 0. -/
def zeroTotalHost : World :=
  { recordedHost with
    output := fun argv =>
      if argv = ["free"] then
        .ok ("              total        used        free\n" ++
          "Mem:              0           0           0\n" ++
          "Swap:             0           0           0\n").toList
      else recordedHost.output argv }

/-- The text `fmt.Sprintf("%5.1f", x)` for `x = tenths / 10`: one decimal, right-aligned
in width 5. -/
def renderTenths (tenths : Nat) : Str :=
  let body := fmtInt (tenths / 10) ++ ".".toList ++ fmtInt (tenths % 10)
  List.replicate (5 - body.length) ' ' ++ body

/-- An output of `top -bn1` in the column format of the tool, every value printed in
width 5 with one decimal and followed by its label, with the given idle value. -/
def topWithIdle (tenths : Nat) : Str :=
  ("top - 10:00:00 up 1 day,  1 user,  load average: 0.00, 0.00, 0.00\n" ++
   "Tasks: 100 total,   1 running,  99 sleeping,   0 stopped,   0 zombie\n" ++
   "%Cpu(s):  0.0 us,  0.0 sy,  0.0 ni,").toList ++ renderTenths tenths ++
  (" id,  0.0 wa,  0.0 hi,  0.0 si,  0.0 st\n" ++
   "MiB Mem :   8000.0 total,   6000.0 free,   2000.0 used,      0.0 buff/cache\n").toList

/-- The recorded host with the given idle value in its `top` output. -/
def idleHost (tenths : Nat) : World :=
  { recordedHost with
    output := fun argv =>
      if argv = ["top", "-bn1"] then .ok (topWithIdle tenths) else recordedHost.output argv }

/-- A package listing of three lines: one header line and two packages. -/
def packageListing : List Str :=
  ["Name           Version      Architecture Description".toList,
   "bash           5.1-6ubuntu1 amd64        GNU Bourne Again SHell".toList,
   "coreutils      8.32-4.1     amd64        GNU core utilities".toList]

/-- The recorded host with `dpkg` and `rpm` both installed; `dpkg -l` prints the three
lines of `packageListing`, `rpm -qa` prints a single line. -/
def debianHost : World :=
  { recordedHost with
    lookPath := fun name => decide (name = "dpkg" ∨ name = "rpm")
    output := fun argv =>
      if argv = ["dpkg", "-l"] then .ok (newlineTerminated packageListing)
      else if argv = ["rpm", "-qa"] then .ok "bash-5.1-6.x86_64\n".toList
      else recordedHost.output argv }

/-- The recorded host with working `lscpu`, `free -h` and `df -h`. -/
def hardwareHost : World :=
  { recordedHost with
    output := fun argv =>
      if argv = ["lscpu"] then .ok "Architecture: x86_64\nCPU(s): 4\n".toList
      else if argv = ["free", "-h"] then
        .ok ("       total  used  free\n" ++ "Mem:   7.8Gi 2.0Gi 5.8Gi\n").toList
      else if argv = ["df", "-h"] then
        .ok ("Filesystem Size Used Avail Use% Mounted on\n" ++
          "/dev/sda1 100G 45G 55G 45% /\n").toList
      else recordedHost.output argv }

/-- The host `hardwareHost` whose `free -h` exits with status 0 and prints nothing. -/
def silentFreeHost : World :=
  { hardwareHost with
    output := fun argv =>
      if argv = ["free", "-h"] then .ok [] else hardwareHost.output argv }

/-- A data row of `ss -tuln`: its six columns, and the number of extra spaces after
each of the first five. -/
structure SsRow where
  netid : Str
  state : Str
  recvQ : Str
  sendQ : Str
  localAddr : Str
  peerAddr : Str
  gap1 : Nat
  gap2 : Nat
  gap3 : Nat
  gap4 : Nat
  gap5 : Nat

/-- A column separator: one space and `extra` more. -/
def columnGap (extra : Nat) : Str := ' ' :: List.replicate extra ' '

/-- The text of a row: the six columns in order, separated by spaces. -/
def SsRow.text (r : SsRow) : Str :=
  r.netid ++ (columnGap r.gap1 ++ (r.state ++ (columnGap r.gap2 ++ (r.recvQ ++
    (columnGap r.gap3 ++ (r.sendQ ++ (columnGap r.gap4 ++ (r.localAddr ++
      (columnGap r.gap5 ++ r.peerAddr)))))))))

/-- A column value: not empty, and without white space. -/
def isColumn (t : Str) : Prop := t ≠ [] ∧ ∀ c ∈ t, strings.isSpace c = false

/-- A row whose six columns are column values and which mentions `LISTEN` only when that
is its state. -/
def SsRow.wellFormed (r : SsRow) : Prop :=
  isColumn r.netid ∧ isColumn r.state ∧ isColumn r.recvQ ∧ isColumn r.sendQ ∧
  isColumn r.localAddr ∧ isColumn r.peerAddr ∧
  (r.state ≠ "LISTEN".toList → strings.Contains r.text "LISTEN".toList = false)

/-- The header line of `ss -tuln`. -/
def ssHeader : Str := "Netid State  Recv-Q Send-Q Local Address:Port Peer Address:Port".toList

/-- An output of `ss -tuln`: the header line and the rows, each followed by a newline. -/
def ssOutput (rows : List SsRow) : Str :=
  ssHeader ++ '\n' :: newlineTerminated (rows.map SsRow.text)

/-- The row `tcp LISTEN 0 128 0.0.0.0:22 0.0.0.0:*`, aligned as in `ssText`. -/
def sshRow : SsRow :=
  { netid := "tcp".toList, state := "LISTEN".toList, recvQ := "0".toList,
    sendQ := "128".toList, localAddr := "0.0.0.0:22".toList, peerAddr := "0.0.0.0:*".toList,
    gap1 := 2, gap2 := 0, gap3 := 5, gap4 := 3, gap5 := 8 }

/-- A UDP row, whose state is not `LISTEN`. -/
def ntpRow : SsRow :=
  { netid := "udp".toList, state := "UNCONN".toList, recvQ := "0".toList,
    sendQ := "0".toList, localAddr := "0.0.0.0:123".toList, peerAddr := "0.0.0.0:*".toList,
    gap1 := 2, gap2 := 0, gap3 := 5, gap4 := 5, gap5 := 7 }

/-- The recorded host with a UDP row and a TCP row in its `ss -tuln` output. -/
def twoSocketHost : World :=
  { recordedHost with
    output := fun argv =>
      if argv = ["ss", "-tuln"] then .ok (ssOutput [ntpRow, sshRow])
      else recordedHost.output argv }

/-- The recorded host without `ss`, whose `netstat -tuln` prints the same listening
socket in the column order of that tool. -/
def netstatHost : World :=
  { recordedHost with
    output := fun argv =>
      if argv = ["ss", "-tuln"] then .error (.os "exec: ss: executable file not found")
      else if argv = ["netstat", "-tuln"] then
        .ok ("Active Internet connections (only servers)\n" ++
          "Proto Recv-Q Send-Q Local Address           Foreign Address         State\n" ++
          "tcp        0      0 0.0.0.0:22              0.0.0.0:*               LISTEN\n").toList
      else recordedHost.output argv }

/-- An output of `free` with `n/a` in place of the numbers of its `Mem:` line. -/
def garbledFreeText : Str :=
  ("              total        used        free\n" ++
   "Mem:            n/a         n/a         n/a\n" ++
   "Swap:             0           0           0\n").toList

/-- The recorded host whose `free` prints `garbledFreeText`; `top` and `df` still
answer. -/
def garbledFreeHost : World :=
  { recordedHost with
    output := fun argv =>
      if argv = ["free"] then .ok garbledFreeText else recordedHost.output argv }

/-! ## Theorems -/

/-- C1: `checkNetworkStatus` always returns a status made of the 5 probe outcomes in
order, and its `Connectivity` is true exactly when at least 3 of the 5 samples have
`Status` true. -/
theorem checkNetworkStatus_majority (w : World) :
    ∃ st, checkNetworkStatus w = .ok st ∧
      st.Samples.map (fun s => s.Status) = (List.range 5).map w.ping ∧
      (st.Connectivity = true ↔ 3 ≤ st.Samples.countP (fun s => s.Status)) := by
  refine ⟨_, rfl, ?_, ?_⟩
  · simp [takeSamples, List.range, List.range.loop]
  · cases h0 : w.ping 0 <;> cases h1 : w.ping 1 <;> cases h2 : w.ping 2 <;>
      cases h3 : w.ping 3 <;> cases h4 : w.ping 4 <;>
      simp [takeSamples, successCount, h0, h1, h2, h3, h4, List.countP_cons]

/-- The outcomes of the three collectors decide a quick run. -/
theorem quick_run (w : World) :
    QuickDetector.Detect w =
      match getBasicInfo w with
      | .err e => { result := .err e, ran := [.basicInfo] }
      | .crash => { result := .crash, ran := [.basicInfo] }
      | .ok b =>
        match getUSEMetrics w with
        | .err e => { result := .err e, ran := [.basicInfo, .useMetrics] }
        | .crash => { result := .crash, ran := [.basicInfo, .useMetrics] }
        | .ok u =>
          match checkFileIntegrity w with
          | .err e => { result := .err e, ran := quickOrder }
          | .crash => { result := .crash, ran := quickOrder }
          | .ok f =>
            { result := .ok
                { ReportType := "Quick Detection".toList, Timestamp := 0, BasicInfo := some b,
                  USEMetrics := some u, FileIntegrity := some f, RunningAssets := none,
                  NetworkStatus := none },
              ran := quickOrder } := by
  unfold QuickDetector.Detect
  cases getBasicInfo w <;> cases getUSEMetrics w <;> cases checkFileIntegrity w <;>
    simp [Run.andThen, Run.call, Run.ret, quickOrder]

/-- The outcomes of the five collectors decide a more run. -/
theorem more_run (w : World) :
    MoreDetector.Detect w =
      match getBasicInfo w with
      | .err e => { result := .err e, ran := [.basicInfo] }
      | .crash => { result := .crash, ran := [.basicInfo] }
      | .ok b =>
        match getUSEMetrics w with
        | .err e => { result := .err e, ran := [.basicInfo, .useMetrics] }
        | .crash => { result := .crash, ran := [.basicInfo, .useMetrics] }
        | .ok u =>
          match checkFileIntegrity w with
          | .err e => { result := .err e, ran := [.basicInfo, .useMetrics, .fileIntegrity] }
          | .crash => { result := .crash, ran := [.basicInfo, .useMetrics, .fileIntegrity] }
          | .ok f =>
            match getRunningAssets w with
            | .err e =>
              { result := .err e,
                ran := [.basicInfo, .useMetrics, .fileIntegrity, .runningAssets] }
            | .crash =>
              { result := .crash,
                ran := [.basicInfo, .useMetrics, .fileIntegrity, .runningAssets] }
            | .ok a =>
              match checkNetworkStatus w with
              | .err e => { result := .err e, ran := moreOrder }
              | .crash => { result := .crash, ran := moreOrder }
              | .ok n =>
                { result := .ok
                    { ReportType := "More Detection".toList, Timestamp := 0,
                      BasicInfo := some b, USEMetrics := some u, FileIntegrity := some f,
                      RunningAssets := some a, NetworkStatus := some n },
                  ran := moreOrder } := by
  unfold MoreDetector.Detect
  cases getBasicInfo w <;> cases getUSEMetrics w <;> cases checkFileIntegrity w <;>
    cases getRunningAssets w <;> cases checkNetworkStatus w <;>
    simp [Run.andThen, Run.call, Run.ret, moreOrder]

/-- C2: a report returned by `QuickDetector.Detect` has `RunningAssets` and
`NetworkStatus` unset; a report returned by `MoreDetector.Detect` has both set, to the
values returned by `getRunningAssets` and `checkNetworkStatus`. -/
theorem detect_assets_and_network (w : World) :
    (∀ q, (QuickDetector.Detect w).result = .ok q →
      q.RunningAssets = none ∧ q.NetworkStatus = none) ∧
    (∀ m, (MoreDetector.Detect w).result = .ok m →
      ∃ a n, getRunningAssets w = .ok a ∧ checkNetworkStatus w = .ok n ∧
        m.RunningAssets = some a ∧ m.NetworkStatus = some n) := by
  constructor
  · intro q hq
    rw [quick_run] at hq
    cases h1 : getBasicInfo w <;> cases h2 : getUSEMetrics w <;>
      cases h3 : checkFileIntegrity w <;> simp_all
    subst hq; simp
  · intro m hm
    rw [more_run] at hm
    cases h1 : getBasicInfo w <;> cases h2 : getUSEMetrics w <;>
      cases h3 : checkFileIntegrity w <;> cases h4 : getRunningAssets w <;>
      cases h5 : checkNetworkStatus w <;> simp_all
    subst hm; simp

set_option maxRecDepth 100000 in
/-- Witness of C2 on the recorded host. -/
theorem detect_assets_and_network_witness :
    (QuickDetector.Detect recordedHost).result = .ok recordedQuick ∧
    (recordedQuick.RunningAssets = none ∧ recordedQuick.NetworkStatus = none) ∧
    (MoreDetector.Detect recordedHost).result = .ok recordedMore ∧
    (∃ a n, getRunningAssets recordedHost = .ok a ∧ checkNetworkStatus recordedHost = .ok n ∧
      recordedMore.RunningAssets = some a ∧ recordedMore.NetworkStatus = some n) :=
  ⟨by decide, (detect_assets_and_network recordedHost).1 recordedQuick (by decide),
    by decide, (detect_assets_and_network recordedHost).2 recordedMore (by decide)⟩

/-- A forgotten outcome is a value only when the call returned one. -/
theorem forget_ok {α : Type} {r : Res α} (h : r.forget = .ok ()) : ∃ a, r = .ok a := by
  cases r <;> simp [Res.forget] at h
  exact ⟨_, rfl⟩

/-- A forgotten outcome is an error only when the call returned that error. -/
theorem forget_err {α : Type} {r : Res α} {e : Err} (h : r.forget = .err e) : r = .err e := by
  cases r <;> simp [Res.forget] at h
  rw [h]

/-- The outcome of a call that returned a value. -/
theorem forget_of_ok {α : Type} {r : Res α} {a : α} (h : r = .ok a) : r.forget = .ok () := by
  rw [h]; rfl

/-- A quick run that returns a report: all three collectors returned values. -/
theorem quick_ok (w : World) (r : Report) (h : (QuickDetector.Detect w).result = .ok r) :
    ∃ b u f, getBasicInfo w = .ok b ∧ getUSEMetrics w = .ok u ∧ checkFileIntegrity w = .ok f := by
  rw [quick_run] at h
  cases h1 : getBasicInfo w <;> rw [h1] at h <;> simp only [reduceCtorEq] at h
  cases h2 : getUSEMetrics w <;> rw [h2] at h <;> simp only [reduceCtorEq] at h
  cases h3 : checkFileIntegrity w <;> rw [h3] at h <;> simp only [reduceCtorEq] at h
  exact ⟨_, _, _, rfl, rfl, rfl⟩

/-- A more run that returns a report: all five collectors returned values. -/
theorem more_ok (w : World) (r : Report) (h : (MoreDetector.Detect w).result = .ok r) :
    ∃ b u f a n, getBasicInfo w = .ok b ∧ getUSEMetrics w = .ok u ∧
      checkFileIntegrity w = .ok f ∧ getRunningAssets w = .ok a ∧
      checkNetworkStatus w = .ok n := by
  rw [more_run] at h
  cases h1 : getBasicInfo w <;> rw [h1] at h <;> simp only [reduceCtorEq] at h
  cases h2 : getUSEMetrics w <;> rw [h2] at h <;> simp only [reduceCtorEq] at h
  cases h3 : checkFileIntegrity w <;> rw [h3] at h <;> simp only [reduceCtorEq] at h
  cases h4 : getRunningAssets w <;> rw [h4] at h <;> simp only [reduceCtorEq] at h
  cases h5 : checkNetworkStatus w <;> rw [h5] at h <;> simp only [reduceCtorEq] at h
  exact ⟨_, _, _, _, _, rfl, rfl, rfl, rfl, rfl⟩

/-- C4: in both detectors, when a collector of the run order returns an error after the
earlier ones succeeded, `Detect` returns that error and no report, and the collectors run
are exactly those up to the failing one; a report is returned only when every collector
of the depth succeeded; an unreadable `/bin` or `/lib` is such an error of
`checkFileIntegrity`. -/
theorem detect_aborts_on_first_error (w : World) :
    (∀ pre s post e, quickOrder = pre ++ s :: post → (∀ t ∈ pre, outcome w t = .ok ()) →
      outcome w s = .err e →
      QuickDetector.Detect w = { result := .err e, ran := pre ++ [s] }) ∧
    (∀ pre s post e, moreOrder = pre ++ s :: post → (∀ t ∈ pre, outcome w t = .ok ()) →
      outcome w s = .err e →
      MoreDetector.Detect w = { result := .err e, ran := pre ++ [s] }) ∧
    (∀ r, (QuickDetector.Detect w).result = .ok r → ∀ t ∈ quickOrder, outcome w t = .ok ()) ∧
    (∀ r, (MoreDetector.Detect w).result = .ok r → ∀ t ∈ moreOrder, outcome w t = .ok ()) ∧
    (∀ e, w.readDir "/bin" = .error e → checkFileIntegrity w = .err e) ∧
    (∀ e files, w.readDir "/bin" = .ok files → w.readDir "/lib" = .error e →
      checkFileIntegrity w = .err e) := by
  refine ⟨?_, ?_, ?_, ?_, ?_, ?_⟩
  · intro pre s post e hord hpre hs
    rw [quick_run]
    rcases pre with _ | ⟨a, _ | ⟨b, _ | ⟨c, pre⟩⟩⟩ <;>
      simp only [quickOrder, List.nil_append, List.cons_append, List.cons.injEq,
        List.nil_eq, List.append_eq_nil, reduceCtorEq, and_false, false_and] at hord
    · obtain ⟨rfl, -⟩ := hord
      rw [forget_err (r := getBasicInfo w) hs]
      rfl
    · obtain ⟨rfl, rfl, -⟩ := hord
      obtain ⟨x, hx⟩ := forget_ok (r := getBasicInfo w) (hpre _ (List.mem_cons_self _ _))
      rw [hx, forget_err (r := getUSEMetrics w) hs]
      rfl
    · obtain ⟨rfl, rfl, rfl, -⟩ := hord
      obtain ⟨x, hx⟩ := forget_ok (r := getBasicInfo w) (hpre _ (List.mem_cons_self _ _))
      obtain ⟨y, hy⟩ := forget_ok (r := getUSEMetrics w)
        (hpre _ (List.mem_cons_of_mem _ (List.mem_cons_self _ _)))
      rw [hx, hy, forget_err (r := checkFileIntegrity w) hs]
      rfl
  · intro pre s post e hord hpre hs
    rw [more_run]
    rcases pre with _ | ⟨a, _ | ⟨b, _ | ⟨c, _ | ⟨d, _ | ⟨f, pre⟩⟩⟩⟩⟩ <;>
      simp only [moreOrder, List.nil_append, List.cons_append, List.cons.injEq,
        List.nil_eq, List.append_eq_nil, reduceCtorEq, and_false, false_and] at hord
    · obtain ⟨rfl, -⟩ := hord
      rw [forget_err (r := getBasicInfo w) hs]
      rfl
    · obtain ⟨rfl, rfl, -⟩ := hord
      obtain ⟨x, hx⟩ := forget_ok (r := getBasicInfo w) (hpre _ (List.mem_cons_self _ _))
      rw [hx, forget_err (r := getUSEMetrics w) hs]
      rfl
    · obtain ⟨rfl, rfl, rfl, -⟩ := hord
      obtain ⟨x, hx⟩ := forget_ok (r := getBasicInfo w) (hpre _ (List.mem_cons_self _ _))
      obtain ⟨y, hy⟩ := forget_ok (r := getUSEMetrics w)
        (hpre _ (List.mem_cons_of_mem _ (List.mem_cons_self _ _)))
      rw [hx, hy, forget_err (r := checkFileIntegrity w) hs]
      rfl
    · obtain ⟨rfl, rfl, rfl, rfl, -⟩ := hord
      obtain ⟨x, hx⟩ := forget_ok (r := getBasicInfo w) (hpre _ (List.mem_cons_self _ _))
      obtain ⟨y, hy⟩ := forget_ok (r := getUSEMetrics w)
        (hpre _ (List.mem_cons_of_mem _ (List.mem_cons_self _ _)))
      obtain ⟨z, hz⟩ := forget_ok (r := checkFileIntegrity w)
        (hpre _ (List.mem_cons_of_mem _ (List.mem_cons_of_mem _ (List.mem_cons_self _ _))))
      rw [hx, hy, hz, forget_err (r := getRunningAssets w) hs]
      rfl
    · obtain ⟨rfl, rfl, rfl, rfl, rfl, -⟩ := hord
      obtain ⟨x, hx⟩ := forget_ok (r := getBasicInfo w) (hpre _ (List.mem_cons_self _ _))
      obtain ⟨y, hy⟩ := forget_ok (r := getUSEMetrics w)
        (hpre _ (List.mem_cons_of_mem _ (List.mem_cons_self _ _)))
      obtain ⟨z, hz⟩ := forget_ok (r := checkFileIntegrity w)
        (hpre _ (List.mem_cons_of_mem _ (List.mem_cons_of_mem _ (List.mem_cons_self _ _))))
      obtain ⟨u, hu⟩ := forget_ok (r := getRunningAssets w)
        (hpre _ (List.mem_cons_of_mem _ (List.mem_cons_of_mem _
          (List.mem_cons_of_mem _ (List.mem_cons_self _ _)))))
      rw [hx, hy, hz, hu, forget_err (r := checkNetworkStatus w) hs]
      rfl
  · intro r hr t ht
    obtain ⟨b, u, f, h1, h2, h3⟩ := quick_ok w r hr
    simp only [quickOrder, List.mem_cons, List.mem_singleton, List.not_mem_nil, or_false] at ht
    rcases ht with rfl | rfl | rfl
    · exact forget_of_ok h1
    · exact forget_of_ok h2
    · exact forget_of_ok h3
  · intro r hr t ht
    obtain ⟨b, u, f, a, n, h1, h2, h3, h4, h5⟩ := more_ok w r hr
    simp only [moreOrder, List.mem_cons, List.mem_singleton, List.not_mem_nil, or_false] at ht
    rcases ht with rfl | rfl | rfl | rfl | rfl
    · exact forget_of_ok h1
    · exact forget_of_ok h2
    · exact forget_of_ok h3
    · exact forget_of_ok h4
    · exact forget_of_ok h5
  · intro e h
    simp only [checkFileIntegrity, listFiles, h]
  · intro e files h1 h2
    simp only [checkFileIntegrity, listFiles, h1, h2]

set_option maxRecDepth 100000 in
/-- Witness of C4: with an unreadable `/bin`, both detectors stop at `checkFileIntegrity`
with its error. -/
theorem detect_aborts_on_first_error_witness :
    QuickDetector.Detect unreadableBinHost =
      { result := .err (.os "open /bin: permission denied"),
        ran := [.basicInfo, .useMetrics] ++ [.fileIntegrity] } ∧
    MoreDetector.Detect unreadableBinHost =
      { result := .err (.os "open /bin: permission denied"),
        ran := [.basicInfo, .useMetrics] ++ [.fileIntegrity] } :=
  ⟨(detect_aborts_on_first_error unreadableBinHost).1 [.basicInfo, .useMetrics]
      .fileIntegrity [] _ rfl (by decide) (by decide),
   (detect_aborts_on_first_error unreadableBinHost).2.1 [.basicInfo, .useMetrics]
      .fileIntegrity [.runningAssets, .networkStatus] _ rfl (by decide) (by decide)⟩

/-- C3: in every result of `getUSEMetrics`, each saturation is the float64 product of the
corresponding utilization and its coefficient (0.8, 0.9, 0.7, 0.6), whatever the
utilization. -/
theorem saturation_is_usage_times_coefficient (w : World) (m : USEMetrics)
    (h : getUSEMetrics w = .ok m) :
    m.CPUSaturation = F64.mul m.CPUUsage (F64.ofRatio 8 10) ∧
    m.MemorySaturation = F64.mul m.MemoryUsage (F64.ofRatio 9 10) ∧
    m.DiskSaturation = F64.mul m.DiskUsage (F64.ofRatio 7 10) ∧
    m.NetworkSaturation = F64.mul m.NetworkUsage (F64.ofRatio 6 10) := by
  unfold getUSEMetrics at h
  cases h1 : getCPUUsage w <;> rw [h1] at h <;> simp only [reduceCtorEq] at h
  cases h2 : getMemoryUsage w <;> rw [h2] at h <;> simp only [reduceCtorEq] at h
  cases h3 : getDiskUsage w <;> rw [h3] at h <;> simp only [reduceCtorEq] at h
  cases h4 : getNetworkUsage w <;> rw [h4] at h <;> simp only [reduceCtorEq] at h
  cases h5 : checkAbnormalEvents w <;> rw [h5] at h <;> simp only [reduceCtorEq] at h
  simp only [Res.ok.injEq] at h
  subst h
  exact ⟨rfl, rfl, rfl, rfl⟩

set_option maxRecDepth 100000 in
/-- Witness of C3 on the recorded host. -/
theorem saturation_is_usage_times_coefficient_witness :
    getUSEMetrics recordedHost = .ok recordedMetrics ∧
    recordedMetrics.CPUSaturation = F64.mul recordedMetrics.CPUUsage (F64.ofRatio 8 10) ∧
    recordedMetrics.MemorySaturation =
      F64.mul recordedMetrics.MemoryUsage (F64.ofRatio 9 10) ∧
    recordedMetrics.DiskSaturation = F64.mul recordedMetrics.DiskUsage (F64.ofRatio 7 10) ∧
    recordedMetrics.NetworkSaturation =
      F64.mul recordedMetrics.NetworkUsage (F64.ofRatio 6 10) :=
  ⟨by decide, saturation_is_usage_times_coefficient recordedHost recordedMetrics (by decide)⟩

set_option maxRecDepth 100000 in
/-- C5 fails as stated: on a host where `ss -tuln` and `netstat -tuln` both fail while
`ps aux` answers, `getRunningAssets` returns the error of `netstat` and a more detection
is aborted with it, before the connectivity collector. -/
theorem socket_probes_fail_counterexample :
    noSocketToolHost.output ["ss", "-tuln"] =
      .error (.os "exec: ss: executable file not found") ∧
    noSocketToolHost.output ["netstat", "-tuln"] =
      .error (.os "exec: netstat: executable file not found") ∧
    noSocketToolHost.output ["ps", "aux"] = .ok psText ∧
    getRunningAssets noSocketToolHost =
      .err (.os "exec: netstat: executable file not found") ∧
    MoreDetector.Detect noSocketToolHost =
      { result := .err (.os "exec: netstat: executable file not found"),
        ran := [.basicInfo, .useMetrics, .fileIntegrity, .runningAssets] } := by
  refine ⟨by decide, by decide, by decide, by decide, by decide⟩

/-- C5 as amended: when `ss -tuln` and `netstat -tuln` both fail, `getOpenPorts` and
`getRunningAssets` return the error of `netstat` and no assets, a more detection returns
no report and does not reach the connectivity collector, and when the three earlier
collectors succeeded it is aborted with that error. -/
theorem socket_probes_fail_aborts (w : World) (e1 e2 : Err)
    (hss : w.output ["ss", "-tuln"] = .error e1)
    (hnetstat : w.output ["netstat", "-tuln"] = .error e2) :
    getOpenPorts w = .err e2 ∧ getRunningAssets w = .err e2 ∧
    (∀ r, (MoreDetector.Detect w).result ≠ .ok r) ∧
    Step.networkStatus ∉ (MoreDetector.Detect w).ran ∧
    (∀ b u f, getBasicInfo w = .ok b → getUSEMetrics w = .ok u →
      checkFileIntegrity w = .ok f →
      MoreDetector.Detect w =
        { result := .err e2,
          ran := [.basicInfo, .useMetrics, .fileIntegrity, .runningAssets] }) := by
  have hp : getOpenPorts w = .err e2 := by simp only [getOpenPorts, hss, hnetstat]
  have ha : getRunningAssets w = .err e2 := by simp only [getRunningAssets, hp]
  refine ⟨hp, ha, ?_, ?_, ?_⟩
  · intro r hr
    obtain ⟨b, u, f, a, n, -, -, -, h4, -⟩ := more_ok w r hr
    rw [ha] at h4
    cases h4
  · rw [more_run, ha]
    cases getBasicInfo w <;> cases getUSEMetrics w <;> cases checkFileIntegrity w <;> simp
  · intro b u f hb hu hf
    rw [more_run, hb, hu, hf, ha]

set_option maxRecDepth 100000 in
/-- Witness of the amended C5 on the host without `ss` and `netstat`. -/
theorem socket_probes_fail_aborts_witness :
    getOpenPorts noSocketToolHost = .err (.os "exec: netstat: executable file not found") ∧
    getRunningAssets noSocketToolHost =
      .err (.os "exec: netstat: executable file not found") ∧
    (∀ r, (MoreDetector.Detect noSocketToolHost).result ≠ .ok r) ∧
    Step.networkStatus ∉ (MoreDetector.Detect noSocketToolHost).ran ∧
    (∀ b u f, getBasicInfo noSocketToolHost = .ok b → getUSEMetrics noSocketToolHost = .ok u →
      checkFileIntegrity noSocketToolHost = .ok f →
      MoreDetector.Detect noSocketToolHost =
        { result := .err (.os "exec: netstat: executable file not found"),
          ran := [.basicInfo, .useMetrics, .fileIntegrity, .runningAssets] }) :=
  socket_probes_fail_aborts noSocketToolHost (.os "exec: ss: executable file not found")
    (.os "exec: netstat: executable file not found") (by decide) (by decide)

set_option maxRecDepth 100000 in
/-- C6 fails as stated: on a host where `top` fails while `free` and `df` answer,
`getUSEMetrics` returns the error of `top` and no metrics, and both detectors return
that error to their caller. -/
theorem cpu_probe_fails_counterexample :
    noTopHost.output ["free"] = .ok freeText ∧ noTopHost.output ["df", "/"] = .ok dfText ∧
    getUSEMetrics noTopHost = .err (.os "exec: top: executable file not found") ∧
    QuickDetector.Detect noTopHost =
      { result := .err (.os "exec: top: executable file not found"),
        ran := [.basicInfo, .useMetrics] } ∧
    MoreDetector.Detect noTopHost =
      { result := .err (.os "exec: top: executable file not found"),
        ran := [.basicInfo, .useMetrics] } :=
  ⟨by decide, by decide, by decide, by decide, by decide⟩

/-- No line of `top` mentions `%Cpu(s)`: the CPU parse fails. -/
theorem cpuOfLines_no_cpu_line (w : World) (lines : List Str)
    (h : ∀ l ∈ lines, strings.Contains l "%Cpu(s)".toList = false) :
    cpuOfLines w lines = .err (.text "could not parse CPU usage") := by
  induction lines with
  | nil => rfl
  | cons l rest ih =>
    have hl := h l (List.mem_cons_self _ _)
    simp only [cpuOfLines, hl, Bool.false_eq_true, if_false]
    exact ih (fun x hx => h x (List.mem_cons_of_mem _ hx))

/-- Lines without `%Cpu(s)`, or without a field containing `id` after the first field,
are passed over by the loop of `getCPUUsage`. -/
theorem cpuOfLines_skip (w : World) (pre rest : List Str)
    (h : ∀ l ∈ pre, strings.Contains l "%Cpu(s)".toList = false ∨
      idleField (strings.Fields l) = none) :
    cpuOfLines w (pre ++ rest) = cpuOfLines w rest := by
  induction pre with
  | nil => rfl
  | cons l pre ih =>
    have ih2 := ih (fun x hx => h x (List.mem_cons_of_mem _ hx))
    show cpuOfLines w (l :: (pre ++ rest)) = _
    rcases h l (List.mem_cons_self _ _) with hl | hl
    · simp only [cpuOfLines, hl, Bool.false_eq_true, if_false]
      exact ih2
    · by_cases hc : strings.Contains l "%Cpu(s)".toList = true
      · simp only [cpuOfLines, hc, if_true, hl]
        exact ih2
      · simp only [cpuOfLines, hc, if_false]
        exact ih2

/-- C6 as amended: a failure of the CPU, memory or disk probe (the command fails, `top`
has no `%Cpu(s)` line with an `id` field, `free` or `df` has too few lines or fields, or
a number of any of the three does not parse) is an error of its collector;
`getUSEMetrics` returns the error of the first of the three that fails, with no
metrics; and both detectors return that error when the basic information was
collected. -/
theorem utilization_probe_failure_propagates (w : World) :
    (∀ e, w.output ["top", "-bn1"] = .error e → getCPUUsage w = .err e) ∧
    (∀ out, w.output ["top", "-bn1"] = .ok out →
      (∀ l ∈ strings.SplitLines out, strings.Contains l "%Cpu(s)".toList = false) →
      getCPUUsage w = .err (.text "could not parse CPU usage")) ∧
    (∀ e, w.output ["free"] = .error e → getMemoryUsage w = .err e) ∧
    (∀ out, w.output ["free"] = .ok out →
      (strings.SplitLines out).length < 3 ∨
        (strings.Fields ((strings.SplitLines out).getD 1 [])).length < 3 →
      getMemoryUsage w = .err (.text "unexpected output from free command")) ∧
    (∀ e, w.output ["df", "/"] = .error e → getDiskUsage w = .err e) ∧
    (∀ out, w.output ["df", "/"] = .ok out →
      (strings.SplitLines out).length < 2 ∨
        (strings.Fields ((strings.SplitLines out).getD 1 [])).length < 5 →
      getDiskUsage w = .err (.text "unexpected output from df command")) ∧
    (∀ out e, w.output ["df", "/"] = .ok out → ¬ (strings.SplitLines out).length < 2 →
      ¬ (strings.Fields ((strings.SplitLines out).getD 1 [])).length < 5 →
      parseFloat w (strings.TrimSuffix
        ((strings.Fields ((strings.SplitLines out).getD 1 [])).getD 4 []) "%".toList) = .err e →
      getDiskUsage w = .err e) ∧
    (∀ e, getCPUUsage w = .err e → getUSEMetrics w = .err e) ∧
    (∀ c e, getCPUUsage w = .ok c → getMemoryUsage w = .err e → getUSEMetrics w = .err e) ∧
    (∀ c m e, getCPUUsage w = .ok c → getMemoryUsage w = .ok m → getDiskUsage w = .err e →
      getUSEMetrics w = .err e) ∧
    (∀ b e, getBasicInfo w = .ok b → getUSEMetrics w = .err e →
      QuickDetector.Detect w = { result := .err e, ran := [.basicInfo, .useMetrics] } ∧
      MoreDetector.Detect w = { result := .err e, ran := [.basicInfo, .useMetrics] }) ∧
    (∀ out, w.output ["top", "-bn1"] = .ok out →
      (∀ l ∈ strings.SplitLines out, strings.Contains l "%Cpu(s)".toList = false ∨
        idleField (strings.Fields l) = none) →
      getCPUUsage w = .err (.text "could not parse CPU usage")) ∧
    (∀ out pre line post tok e, w.output ["top", "-bn1"] = .ok out →
      strings.SplitLines out = pre ++ line :: post →
      (∀ l ∈ pre, strings.Contains l "%Cpu(s)".toList = false ∨
        idleField (strings.Fields l) = none) →
      strings.Contains line "%Cpu(s)".toList = true →
      idleField (strings.Fields line) = some tok → parseFloat w tok = .err e →
      getCPUUsage w = .err e) ∧
    (∀ out e, w.output ["free"] = .ok out → ¬ (strings.SplitLines out).length < 3 →
      ¬ (strings.Fields ((strings.SplitLines out).getD 1 [])).length < 3 →
      parseFloat w ((strings.Fields ((strings.SplitLines out).getD 1 [])).getD 1 []) =
        .err e →
      getMemoryUsage w = .err e) ∧
    (∀ out total e, w.output ["free"] = .ok out → ¬ (strings.SplitLines out).length < 3 →
      ¬ (strings.Fields ((strings.SplitLines out).getD 1 [])).length < 3 →
      parseFloat w ((strings.Fields ((strings.SplitLines out).getD 1 [])).getD 1 []) =
        .ok total →
      parseFloat w ((strings.Fields ((strings.SplitLines out).getD 1 [])).getD 2 []) =
        .err e →
      getMemoryUsage w = .err e) := by
  refine ⟨?_, ?_, ?_, ?_, ?_, ?_, ?_, ?_, ?_, ?_, ?_, ?_, ?_, ?_, ?_⟩
  · intro e h
    simp only [getCPUUsage, h]
  · intro out h hl
    simp only [getCPUUsage, h]
    exact cpuOfLines_no_cpu_line w _ hl
  · intro e h
    simp only [getMemoryUsage, h]
  · intro out h hl
    simp only [getMemoryUsage, h]
    rcases hl with hl | hl
    · simp only [hl, if_true]
    · by_cases h3 : (strings.SplitLines out).length < 3
      · simp only [h3, if_true]
      · simp only [h3, if_false, hl, if_true]
  · intro e h
    simp only [getDiskUsage, h]
  · intro out h hl
    simp only [getDiskUsage, h]
    rcases hl with hl | hl
    · simp only [hl, if_true]
    · by_cases h3 : (strings.SplitLines out).length < 2
      · simp only [h3, if_true]
      · simp only [h3, if_false, hl, if_true]
  · intro out e h h2 h5 hp
    simp only [getDiskUsage, h, h2, h5, if_false, hp]
  · intro e h
    simp only [getUSEMetrics, h]
  · intro c e h1 h2
    simp only [getUSEMetrics, h1, h2]
  · intro c m e h1 h2 h3
    simp only [getUSEMetrics, h1, h2, h3]
  · intro b e hb hu
    constructor
    · rw [quick_run, hb, hu]
    · rw [more_run, hb, hu]
  · intro out h hl
    simp only [getCPUUsage, h]
    have hs := cpuOfLines_skip w (strings.SplitLines out) [] hl
    rw [List.append_nil] at hs
    rw [hs]
    rfl
  · intro out pre line post tok e h hsplit hpre hc hf hp
    simp only [getCPUUsage, h]
    rw [hsplit, cpuOfLines_skip w pre _ hpre]
    simp only [cpuOfLines, hc, if_true, hf, hp]
  · intro out e h h3 hf hp
    simp only [getMemoryUsage, h, h3, hf, if_false, hp]
  · intro out total e h h3 hf ht hu
    simp only [getMemoryUsage, h, h3, hf, if_false, ht, hu]

set_option maxRecDepth 100000 in
/-- Witness of the amended C6: without `top` the command error is returned; with idle
100.0 printed as `ni,100.0` the CPU number does not parse; with `n/a` in the `Mem:`
line the memory number does not parse; each time `getUSEMetrics` and a quick
detection return that error. -/
theorem utilization_probe_failure_propagates_witness :
    getCPUUsage noTopHost = .err (.os "exec: top: executable file not found") ∧
    getUSEMetrics noTopHost = .err (.os "exec: top: executable file not found") ∧
    getCPUUsage (idleHost 1000) = .err .scan ∧
    getUSEMetrics (idleHost 1000) = .err .scan ∧
    getMemoryUsage garbledFreeHost = .err .scan ∧
    getUSEMetrics garbledFreeHost = .err .scan ∧
    QuickDetector.Detect garbledFreeHost =
      { result := .err .scan, ran := [.basicInfo, .useMetrics] } := by
  have hn := utilization_probe_failure_propagates noTopHost
  have hi := utilization_probe_failure_propagates (idleHost 1000)
  have hg := utilization_probe_failure_propagates garbledFreeHost
  have h1 : getCPUUsage noTopHost = .err (.os "exec: top: executable file not found") :=
    hn.1 _ (by decide)
  have h2 : getCPUUsage (idleHost 1000) = .err .scan :=
    hi.2.2.2.2.2.2.2.2.2.2.2.2.1 (topWithIdle 1000)
      ["top - 10:00:00 up 1 day,  1 user,  load average: 0.00, 0.00, 0.00".toList,
       "Tasks: 100 total,   1 running,  99 sleeping,   0 stopped,   0 zombie".toList]
      ("%Cpu(s):  0.0 us,  0.0 sy,  0.0 ni,100.0 id,  0.0 wa,  0.0 hi,  0.0 si,  0.0 st").toList
      ["MiB Mem :   8000.0 total,   6000.0 free,   2000.0 used,      0.0 buff/cache".toList, []]
      "ni,100.0".toList .scan (by decide) (by decide) (by decide) (by decide) (by decide)
      (by decide)
  have h3 : getMemoryUsage garbledFreeHost = .err .scan :=
    hg.2.2.2.2.2.2.2.2.2.2.2.2.2.1 garbledFreeText .scan (by decide) (by decide) (by decide)
      (by decide)
  have h4 : getUSEMetrics garbledFreeHost = .err .scan :=
    hg.2.2.2.2.2.2.2.2.1 (F64.ofNat 18) .scan (by decide) h3
  have h5 : getBasicInfo garbledFreeHost =
      .ok { HardwareInfo := "Unknown".toList
            OSInfo := "Linux host 6.1.0 x86_64 GNU/Linux".toList
            SoftwareInfo := "Unknown package manager".toList } := by decide
  exact ⟨h1, hn.2.2.2.2.2.2.2.1 _ h1, h2, hi.2.2.2.2.2.2.2.1 _ h2, h3, h4,
    (hg.2.2.2.2.2.2.2.2.2.2.1 _ .scan h5 h4).1⟩

/-- Splitting a text that starts with a newline-terminated line. -/
theorem SplitLines_line (l rest : Str) (h : '\n' ∉ l) :
    strings.SplitLines (l ++ '\n' :: rest) = l :: strings.SplitLines rest := by
  induction l with
  | nil => simp [strings.SplitLines]
  | cons c l ih =>
    have hc : c ≠ '\n' := fun hc => h (by simp [hc])
    have hl : '\n' ∉ l := fun hl => h (List.mem_cons_of_mem _ hl)
    have ih2 := ih hl
    show strings.SplitLines (c :: (l ++ '\n' :: rest)) = (c :: l) :: strings.SplitLines rest
    simp only [strings.SplitLines, hc, if_false, ih2]

/-- A text of `n` newline-terminated lines splits into `n + 1` segments. -/
theorem SplitLines_newlineTerminated (ls : List Str) (h : ∀ l ∈ ls, '\n' ∉ l) :
    (strings.SplitLines (newlineTerminated ls)).length = ls.length + 1 := by
  induction ls with
  | nil => rfl
  | cons l ls ih =>
    simp only [newlineTerminated, SplitLines_line l _ (h l (List.mem_cons_self _ _)),
      List.length_cons, ih (fun x hx => h x (List.mem_cons_of_mem _ hx))]

/-- C7: `checkAbnormalEvents` never returns an error; its events are those of the
Debian-style log followed by those of the RHEL-style log, and for each log: a log that
does not exist adds nothing; a scan that fails (as `grep` does when nothing matches) or
prints nothing adds nothing; a scan that prints `n ≥ 1` newline-terminated lines adds
exactly the one string `Found n SSH failed login attempts` (with `7` for `n = 7`). -/
theorem checkAbnormalEvents_counts (w : World) :
    checkAbnormalEvents w =
      .ok (logEvents w "/var/log/auth.log" ++ logEvents w "/var/log/secure") ∧
    (∀ path, w.stat path = false → logEvents w path = []) ∧
    (∀ path e, w.output ["grep", "Failed password", path] = .error e →
      logEvents w path = []) ∧
    (∀ path, w.output ["grep", "Failed password", path] = .ok [] → logEvents w path = []) ∧
    (∀ path ls, w.stat path = true → ls ≠ [] → (∀ l ∈ ls, '\n' ∉ l) →
      w.output ["grep", "Failed password", path] = .ok (newlineTerminated ls) →
      logEvents w path =
        ["Found ".toList ++ fmtInt ls.length ++ " SSH failed login attempts".toList]) ∧
    "Found ".toList ++ fmtInt 7 ++ " SSH failed login attempts".toList =
      "Found 7 SSH failed login attempts".toList := by
  refine ⟨rfl, ?_, ?_, ?_, ?_, by decide⟩
  · intro path h
    simp [logEvents, h]
  · intro path e h
    simp [logEvents, h]
  · intro path h
    simp [logEvents, h, strings.SplitLines]
  · intro path ls hs hne hl hout
    have hlen := SplitLines_newlineTerminated ls hl
    have hpos : 0 < ls.length := List.length_pos.mpr hne
    simp only [logEvents, hs, if_true, hout, hlen]
    rw [if_pos (by omega)]
    simp

set_option maxRecDepth 100000 in
/-- Witness of C7: a Debian-style log with 7 matching lines and no RHEL-style log give
the single event `Found 7 SSH failed login attempts`. -/
theorem checkAbnormalEvents_counts_witness :
    logEvents authLogHost "/var/log/auth.log" =
      ["Found 7 SSH failed login attempts".toList] ∧
    logEvents authLogHost "/var/log/secure" = [] ∧
    checkAbnormalEvents authLogHost = .ok ["Found 7 SSH failed login attempts".toList] := by
  have h := checkAbnormalEvents_counts authLogHost
  have h1 := h.2.2.2.2.1 "/var/log/auth.log" (List.replicate 7 failedLoginLine)
    (by decide) (by decide) (by decide) (by decide)
  have h2 := h.2.1 "/var/log/secure" (by decide)
  have h7 : fmtInt (List.replicate 7 failedLoginLine).length = "7".toList := by decide
  refine ⟨?_, h2, ?_⟩
  · rw [h1, h7]; decide
  · rw [h.1, h1, h2, h7]; decide

/-- A prefix of a line without its carriage return is a prefix of the line. -/
theorem HasPrefix_of_dropCR (l pre : Str) (h : strings.HasPrefix (dropCR l) pre = true) :
    strings.HasPrefix l pre = true := by
  unfold strings.HasPrefix at *
  unfold dropCR at h
  split at h
  · rw [List.isPrefixOf_iff_prefix] at *
    exact h.trans (List.dropLast_prefix l)
  · exact h

/-- Every scanned line is a segment of the file without its carriage return. -/
theorem mem_scanSegments (segs : List Str) (x : Str) (h : x ∈ scanSegments segs) :
    ∃ l ∈ segs, x = dropCR l := by
  induction segs with
  | nil => simp [scanSegments] at h
  | cons seg rest ih =>
    cases rest with
    | nil =>
      simp only [scanSegments] at h
      split at h
      · simp at h
      · split at h
        · simp only [List.mem_singleton] at h
          exact ⟨seg, List.mem_cons_self _ _, h⟩
        · simp at h
    | cons seg2 rest2 =>
      simp only [scanSegments] at h
      split at h
      · rcases List.mem_cons.mp h with h | h
        · exact ⟨seg, List.mem_cons_self _ _, h⟩
        · obtain ⟨l, hl, hx⟩ := ih h
          exact ⟨l, List.mem_cons_of_mem _ hl, hx⟩
      · simp at h

/-- Lines without the two keys leave the name and the version as they are. -/
theorem scanOSRelease_no_keys (lines : List Str) (acc : Str × Str)
    (h : ∀ l ∈ lines, strings.HasPrefix l "NAME=".toList = false ∧
      strings.HasPrefix l "VERSION=".toList = false) :
    scanOSRelease lines acc = acc := by
  induction lines generalizing acc with
  | nil => rfl
  | cons l rest ih =>
    obtain ⟨n, v⟩ := acc
    obtain ⟨h1, h2⟩ := h l (List.mem_cons_self _ _)
    simp only [scanOSRelease, h1, h2, Bool.false_eq_true, if_false]
    exact ih _ (fun x hx => h x (List.mem_cons_of_mem _ hx))

/-- C8: when `/etc/os-release` is absent, or its content has no line starting with
`NAME=` and none starting with `VERSION=`, `getOSInfo` returns no error and takes the
fallback: the trimmed output of `uname -a` when that command succeeds, `Unknown` when
it fails. -/
theorem getOSInfo_fallback (w : World)
    (h : w.stat "/etc/os-release" = false ∨
      ∃ content, w.openFile "/etc/os-release" = .ok content ∧
        ∀ l ∈ strings.SplitLines content,
          strings.HasPrefix l "NAME=".toList = false ∧
          strings.HasPrefix l "VERSION=".toList = false) :
    getOSInfo w =
      match w.output ["uname", "-a"] with
      | .ok uname => .ok (strings.TrimSpace uname)
      | .error _ => .ok "Unknown".toList := by
  have hu : unameInfo w =
      match w.output ["uname", "-a"] with
      | .ok uname => .ok (strings.TrimSpace uname)
      | .error _ => .ok "Unknown".toList := by
    unfold unameInfo
    cases w.output ["uname", "-a"] <;> rfl
  rw [← hu]
  by_cases hs : w.stat "/etc/os-release" = true
  · rcases h with h | ⟨content, hc, hl⟩
    · rw [hs] at h; cases h
    · have hscan : scanOSRelease (scanSegments (strings.SplitLines content)) ([], []) =
          ([], []) := by
        apply scanOSRelease_no_keys
        intro x hx
        obtain ⟨l, hl1, rfl⟩ := mem_scanSegments _ _ hx
        obtain ⟨h1, h2⟩ := hl l hl1
        constructor
        · cases hp : strings.HasPrefix (dropCR l) "NAME=".toList
          · rfl
          · rw [HasPrefix_of_dropCR _ _ hp] at h1; cases h1
        · cases hp : strings.HasPrefix (dropCR l) "VERSION=".toList
          · rfl
          · rw [HasPrefix_of_dropCR _ _ hp] at h2; cases h2
      simp [getOSInfo, hs, hc, hscan]
  · simp [getOSInfo, hs]

set_option maxRecDepth 100000 in
/-- Witness of C8: no release file, and a release file with only `PRETTY_NAME=`,
`VERSION_ID=` and `ID=` lines, both give the trimmed output of `uname -a`. -/
theorem getOSInfo_fallback_witness :
    getOSInfo recordedHost = .ok "Linux host 6.1.0 x86_64 GNU/Linux".toList ∧
    getOSInfo malformedReleaseHost = .ok "Linux host 6.1.0 x86_64 GNU/Linux".toList := by
  constructor
  · rw [getOSInfo_fallback recordedHost (Or.inl (by decide))]; decide
  · rw [getOSInfo_fallback malformedReleaseHost
      (Or.inr ⟨_, rfl, by decide⟩)]
    decide

set_option maxRecDepth 100000 in
/-- C9 fails as stated: on the recorded outputs (idle 82.0, total 8000 and used 2000,
Use% 45%) `getUSEMetrics` returns the stated utilizations and CPU and memory
saturations, but its `DiskSaturation` is not 31.5. -/
theorem recorded_scenario_counterexample :
    ∃ m, getUSEMetrics recordedHost = .ok m ∧
      m.CPUUsage = F64.ofNat 18 ∧ m.MemoryUsage = F64.ofNat 25 ∧ m.DiskUsage = F64.ofNat 45 ∧
      m.CPUSaturation = F64.ofRatio 144 10 ∧ m.MemorySaturation = F64.ofRatio 225 10 ∧
      m.DiskSaturation ≠ F64.ofRatio 315 10 :=
  ⟨recordedMetrics, by decide, by decide, by decide, by decide, by decide, by decide,
    by decide⟩

set_option maxRecDepth 100000 in
/-- The CPU usage read from the recorded `top` output. -/
theorem cpu_of_topText (w : World) :
    cpuOfLines w (strings.SplitLines topText) = .ok (F64.ofNat 18) := by
  rfl

set_option maxRecDepth 100000 in
/-- The memory usage read from the recorded `free` output. -/
theorem memory_of_freeText (w : World) (h : w.output ["free"] = .ok freeText) :
    getMemoryUsage w = .ok (F64.ofNat 25) := by
  unfold getMemoryUsage
  rw [h]
  rfl

set_option maxRecDepth 100000 in
/-- The disk usage read from the recorded `df` output. -/
theorem disk_of_dfText (w : World) (h : w.output ["df", "/"] = .ok dfText) :
    getDiskUsage w = .ok (F64.ofNat 45) := by
  unfold getDiskUsage
  rw [h]
  rfl

set_option maxRecDepth 100000 in
/-- C9 as amended: on the recorded outputs (idle 82.0, total 8000 and used 2000, Use%
45%) `getUSEMetrics` returns CPUUsage 18.0, MemoryUsage 25.0, DiskUsage 45.0,
CPUSaturation 14.4, MemorySaturation 22.5, and DiskSaturation 31.499999999999996, the
float64 product `45.0 * 0.7`, which is the float64 just below 31.5. -/
theorem recorded_scenario (w : World) (htop : w.output ["top", "-bn1"] = .ok topText)
    (hfree : w.output ["free"] = .ok freeText) (hdf : w.output ["df", "/"] = .ok dfText) :
    ∃ m, getUSEMetrics w = .ok m ∧
      m.CPUUsage = F64.ofNat 18 ∧ m.MemoryUsage = F64.ofNat 25 ∧ m.DiskUsage = F64.ofNat 45 ∧
      m.CPUSaturation = F64.ofRatio 144 10 ∧ m.MemorySaturation = F64.ofRatio 225 10 ∧
      m.DiskSaturation = F64.ofRatio 31499999999999996 1000000000000000 ∧
      m.DiskSaturation = F64.fin false 8866461766385663 (-48) ∧
      F64.ofRatio 315 10 = F64.fin false 8866461766385664 (-48) := by
  have hc : getCPUUsage w = .ok (F64.ofNat 18) := by
    unfold getCPUUsage
    rw [htop]
    exact cpu_of_topText w
  have hm := memory_of_freeText w hfree
  have hd := disk_of_dfText w hdf
  refine ⟨{ recordedMetrics with
      AbnormalEvents := logEvents w "/var/log/auth.log" ++ logEvents w "/var/log/secure" },
    ?_, rfl, rfl, rfl, rfl, rfl, rfl, ?_, ?_⟩
  · simp only [getUSEMetrics, hc, hm, hd, getNetworkUsage, checkAbnormalEvents]
    rfl
  · show recordedMetrics.DiskSaturation = _
    decide
  · decide

set_option maxRecDepth 100000 in
/-- Witness of the amended C9 on the recorded host. -/
theorem recorded_scenario_witness :
    ∃ m, getUSEMetrics recordedHost = .ok m ∧
      m.CPUUsage = F64.ofNat 18 ∧ m.MemoryUsage = F64.ofNat 25 ∧ m.DiskUsage = F64.ofNat 45 ∧
      m.CPUSaturation = F64.ofRatio 144 10 ∧ m.MemorySaturation = F64.ofRatio 225 10 ∧
      m.DiskSaturation = F64.ofRatio 31499999999999996 1000000000000000 ∧
      m.DiskSaturation = F64.fin false 8866461766385663 (-48) ∧
      F64.ofRatio 315 10 = F64.fin false 8866461766385664 (-48) :=
  recorded_scenario recordedHost (by decide) (by decide) (by decide)

namespace F64

/-- The binary logarithm brackets its argument. -/
theorem log2Fuel_spec : ∀ fuel n : Nat, n ≤ fuel → 1 ≤ n →
    2 ^ log2Fuel fuel n ≤ n ∧ n < 2 ^ (log2Fuel fuel n + 1) := by
  intro fuel
  induction fuel with
  | zero => intro n h1 h2; omega
  | succ fuel ih =>
    intro n h1 h2
    unfold log2Fuel
    by_cases h : n < 2
    · simp only [h, if_true]
      constructor <;> simp <;> omega
    · simp only [h, if_false]
      obtain ⟨ih1, ih2⟩ := ih (n / 2) (by omega) (by omega)
      have e1 : 2 ^ (log2Fuel fuel (n / 2) + 1) = 2 * 2 ^ log2Fuel fuel (n / 2) := by
        rw [pow_succ]; ring
      have e2 : 2 ^ (log2Fuel fuel (n / 2) + 1 + 1) = 2 * 2 ^ (log2Fuel fuel (n / 2) + 1) := by
        rw [pow_succ]; ring
      constructor
      · rw [e1]; omega
      · rw [e2]; omega

/-- The binary logarithm brackets its argument. -/
theorem log2_spec (n : Nat) (h : 1 ≤ n) : 2 ^ log2 n ≤ n ∧ n < 2 ^ (log2 n + 1) :=
  log2Fuel_spec n n (le_refl n) h

/-- The exponent found by `floorLog2` is not above the ratio: `2^e ≤ p/q`. -/
theorem floorLog2_le (p q : Nat) (hp : 1 ≤ p) (hq : 1 ≤ q) :
    q * 2 ^ (floorLog2 p q).toNat ≤ p * 2 ^ (-(floorLog2 p q)).toNat := by
  unfold floorLog2
  simp only []
  split_ifs with hc
  · exact hc
  · obtain ⟨hp1, _⟩ := log2_spec p hp
    obtain ⟨_, hq2⟩ := log2_spec q hq
    generalize log2 p = a at *
    generalize log2 q = b at *
    by_cases hab : b + 1 ≤ a
    · have t1 : ((a : Int) - (b : Int) - 1).toNat = a - b - 1 := by omega
      have t2 : (-((a : Int) - (b : Int) - 1)).toNat = 0 := by omega
      rw [t1, t2, pow_zero, mul_one]
      have : q * 2 ^ (a - b - 1) ≤ 2 ^ (b + 1) * 2 ^ (a - b - 1) :=
        Nat.mul_le_mul_right _ (le_of_lt hq2)
      have e : 2 ^ (b + 1) * 2 ^ (a - b - 1) = 2 ^ a := by
        rw [← pow_add]; congr 1; omega
      omega
    · have t1 : ((a : Int) - (b : Int) - 1).toNat = 0 := by omega
      have t2 : (-((a : Int) - (b : Int) - 1)).toNat = b + 1 - a := by omega
      rw [t1, t2, pow_zero, mul_one]
      have : 2 ^ a * 2 ^ (b + 1 - a) ≤ p * 2 ^ (b + 1 - a) := Nat.mul_le_mul_right _ hp1
      have e : 2 ^ a * 2 ^ (b + 1 - a) = 2 ^ (b + 1) := by
        rw [← pow_add]; congr 1; omega
      omega

/-- Rounding to the nearest integer does not pass an integer bound. -/
theorem nearest_le (num q M : Nat) (hq : 1 ≤ q) (h : num ≤ M * q) :
    (if 2 * (num % q) < q then num / q
      else if q < 2 * (num % q) then num / q + 1 else num / q + num / q % 2) ≤ M := by
  have h0 : num / q ≤ M := Nat.div_le_of_le_mul (by rw [Nat.mul_comm]; exact h)
  have hdm := Nat.div_add_mod num q
  by_cases hlt : num / q < M
  · split_ifs <;> omega
  · have heq : num / q = M := by omega
    have hr : num % q = 0 := by
      rw [heq] at hdm
      have : q * M = M * q := Nat.mul_comm _ _
      omega
    rw [hr]
    simp only [Nat.mul_zero]
    rw [if_pos (by omega)]
    exact h0

/-- Rounding `p/q ≤ B` gives a finite magnitude `≤ B`, for an integer `B < 2^53`. -/
theorem roundMag_le (p q B : Nat) (hq : 1 ≤ q) (hB : B < 2 ^ 53) (h : p ≤ B * q) :
    ∃ n k, roundMag p q = some (n, k) ∧ (n : ℚ) * (2 : ℚ) ^ k ≤ (B : ℚ) := by
  unfold roundMag
  by_cases hp : p = 0
  · refine ⟨0, -1074, by simp [hp], ?_⟩
    simp
  · have hfl := floorLog2_le p q (by omega) hq
    have he : floorLog2 p q ≤ 52 := by
      by_contra hcon
      have t1 : (-(floorLog2 p q)).toNat = 0 := by omega
      have t2 : 53 ≤ (floorLog2 p q).toNat := by omega
      rw [t1, pow_zero, mul_one] at hfl
      have t3 : 2 ^ 53 ≤ 2 ^ (floorLog2 p q).toNat := Nat.pow_le_pow_right (by omega) t2
      have t4 : q * 2 ^ 53 ≤ q * 2 ^ (floorLog2 p q).toNat := Nat.mul_le_mul_left _ t3
      have t5 : q * 2 ^ 53 ≤ B * q := by omega
      have t6 : 2 ^ 53 * q ≤ B * q := by rw [Nat.mul_comm]; exact t5
      have t7 := Nat.le_of_mul_le_mul_right t6 (by omega)
      omega
    simp only [hp, if_false]
    generalize hk : max (floorLog2 p q) (-1022) - 52 = k
    have hk0 : k ≤ 0 := by omega
    have hkn : k.toNat = 0 := by omega
    obtain ⟨K, hK⟩ : ∃ K : Nat, k = -(K : Int) := ⟨(-k).toNat, by omega⟩
    have hKn : (-k).toNat = K := by omega
    rw [hkn, hKn, pow_zero, mul_one]
    have hnum : p * 2 ^ K ≤ (B * 2 ^ K) * q := by
      calc p * 2 ^ K ≤ (B * q) * 2 ^ K := Nat.mul_le_mul_right _ h
        _ = (B * 2 ^ K) * q := by ring
    have hn := nearest_le (p * 2 ^ K) q (B * 2 ^ K) hq hnum
    generalize (if 2 * (p * 2 ^ K % q) < q then p * 2 ^ K / q
      else if q < 2 * (p * 2 ^ K % q) then p * 2 ^ K / q + 1
      else p * 2 ^ K / q + p * 2 ^ K / q % 2) = n at hn
    have hval : (n : ℚ) * (2 : ℚ) ^ k ≤ (B : ℚ) := by
      have h2 : (0 : ℚ) < (2 : ℚ) ^ K := by positivity
      have h1 : (n : ℚ) ≤ (B : ℚ) * (2 : ℚ) ^ K := by exact_mod_cast hn
      rw [hK, zpow_neg, zpow_natCast, ← div_eq_mul_inv, div_le_iff₀ h2]
      exact h1
    by_cases h53 : n = 2 ^ 53
    · refine ⟨2 ^ 52, k + 1, ?_, ?_⟩
      · simp only [h53, if_true]
        rw [if_neg (by omega)]
      · have : ((2 ^ 52 : Nat) : ℚ) * (2 : ℚ) ^ (k + 1) = (n : ℚ) * (2 : ℚ) ^ k := by
          rw [h53, zpow_add_one₀ (by norm_num)]
          push_cast
          ring
        rw [this]
        exact hval
    · refine ⟨n, k, ?_, hval⟩
      simp only [h53, if_false]
      rw [if_neg (by omega)]

end F64

namespace F64

/-- The rational value of a scaled signed integer. -/
theorem signed_cast_mul (s : Bool) (m k : Nat) :
    ((signed s (m * k) : Int) : ℚ) = ((signed s m : Int) : ℚ) * (k : ℚ) := by
  cases s <;> simp [signed]

/-- A power of two with a non-negative integer exponent. -/
theorem two_pow_toNat (a : Int) (h : 0 ≤ a) : (2 : ℚ) ^ a.toNat = (2 : ℚ) ^ a := by
  rw [← zpow_natCast]
  congr 1
  exact Int.toNat_of_nonneg h

/-- The comparison of finite values is the comparison of their rational values. -/
theorem le_fin_iff (s1 : Bool) (m1 : Nat) (e1 : Int) (s2 : Bool) (m2 : Nat) (e2 : Int) :
    le (fin s1 m1 e1) (fin s2 m2 e2) = true ↔
      ((signed s1 m1 : Int) : ℚ) * (2 : ℚ) ^ e1 ≤ ((signed s2 m2 : Int) : ℚ) * (2 : ℚ) ^ e2 := by
  simp only [le, decide_eq_true_eq]
  generalize he : min e1 e2 = e
  have h1 : 0 ≤ e1 - e := by omega
  have h2 : 0 ≤ e2 - e := by omega
  rw [← Int.cast_le (R := ℚ), signed_cast_mul, signed_cast_mul]
  push_cast
  rw [two_pow_toNat _ h1, two_pow_toNat _ h2, zpow_sub₀ (by norm_num), zpow_sub₀ (by norm_num),
    ← mul_div_assoc, ← mul_div_assoc]
  have hpos : (0 : ℚ) < (2 : ℚ) ^ e := by positivity
  exact div_le_div_iff_of_pos_right hpos

/-- The float64 constant 0. -/
theorem ofNat_zero : ofNat 0 = fin false 0 (-1074) := by decide

set_option maxRecDepth 100000 in
/-- The float64 constant 100. -/
theorem ofNat_hundred : ofNat 100 = fin false 7036874417766400 (-46) := by decide

/-- A finite value is in `[0, 100]` exactly when its rational value is. -/
theorem inPercentRange_fin (s : Bool) (m : Nat) (e : Int) :
    inPercentRange (fin s m e) ↔
      0 ≤ ((signed s m : Int) : ℚ) * (2 : ℚ) ^ e ∧
      ((signed s m : Int) : ℚ) * (2 : ℚ) ^ e ≤ 100 := by
  unfold inPercentRange
  rw [ofNat_zero, ofNat_hundred, le_fin_iff, le_fin_iff]
  have h100 : ((signed false 7036874417766400 : Int) : ℚ) * (2 : ℚ) ^ (-46 : Int) = 100 := by
    simp only [signed]
    norm_num [zpow_neg]
  have h0 : ((signed false 0 : Int) : ℚ) * (2 : ℚ) ^ (-1074 : Int) = 0 := by
    simp [signed]
  rw [h100, h0]

/-- Only finite values are in `[0, 100]`. -/
theorem inPercentRange_finite (x : F64) (h : inPercentRange x) : ∃ s m e, x = fin s m e := by
  cases x with
  | fin s m e => exact ⟨s, m, e, rfl⟩
  | inf s =>
    unfold inPercentRange at h
    rw [ofNat_zero, ofNat_hundred] at h
    cases s <;> simp [le] at h
  | nan =>
    unfold inPercentRange at h
    rw [ofNat_zero] at h
    simp [le] at h

/-- Rounding `p/q ≤ B` with a sign gives a finite value of magnitude `≤ B`. -/
theorem round_le (neg : Bool) (p q B : Nat) (hq : 1 ≤ q) (hB : B < 2 ^ 53) (h : p ≤ B * q) :
    ∃ n k, round neg p q = fin neg n k ∧ (n : ℚ) * (2 : ℚ) ^ k ≤ (B : ℚ) := by
  obtain ⟨n, k, h1, h2⟩ := roundMag_le p q B hq hB h
  exact ⟨n, k, by simp [round, h1], h2⟩

/-- A non-negative finite value of magnitude at most 100 is in `[0, 100]`. -/
theorem inPercentRange_of_le (n : Nat) (k : Int) (h : (n : ℚ) * (2 : ℚ) ^ k ≤ 100) :
    inPercentRange (fin false n k) := by
  rw [inPercentRange_fin]
  simp only [signed, Bool.false_eq_true, if_false, Int.cast_natCast]
  exact ⟨by positivity, h⟩

/-- A zero of either sign is in `[0, 100]`. -/
theorem inPercentRange_zero (s : Bool) (k : Int) : inPercentRange (fin s 0 k) := by
  rw [inPercentRange_fin]
  cases s <;> simp [signed]

/-- Subtracting a value of `[0, 100]` from 100 gives a value of `[0, 100]`. -/
theorem sub_hundred_inPercentRange (x : F64) (h : inPercentRange x) :
    inPercentRange (sub (ofNat 100) x) := by
  obtain ⟨s, m, e, rfl⟩ := inPercentRange_finite x h
  rw [inPercentRange_fin] at h
  obtain ⟨hv0, hv100⟩ := h
  rw [ofNat_hundred]
  simp only [sub, neg, add]
  generalize hE : min (-46 : Int) e = E
  have hE1 : 0 ≤ -46 - E := by omega
  have hE2 : 0 ≤ e - E := by omega
  generalize hsum : signed false (7036874417766400 * 2 ^ (-46 - E).toNat) +
    signed (!s) (m * 2 ^ (e - E).toNat) = sum
  have hpos : (0 : ℚ) < (2 : ℚ) ^ E := by positivity
  have hcast : (sum : ℚ) * (2 : ℚ) ^ E = 100 - ((signed s m : Int) : ℚ) * (2 : ℚ) ^ e := by
    rw [← hsum]
    push_cast
    rw [signed_cast_mul, signed_cast_mul]
    push_cast
    rw [two_pow_toNat _ hE1, two_pow_toNat _ hE2, zpow_sub₀ (by norm_num),
      zpow_sub₀ (by norm_num)]
    have hs : ((signed (!s) m : Int) : ℚ) = -((signed s m : Int) : ℚ) := by
      cases s <;> simp [signed]
    have hM : ((signed false 7036874417766400 : Int) : ℚ) * (2 : ℚ) ^ (-46 : Int) = 100 := by
      simp only [signed]
      norm_num [zpow_neg]
    rw [hs, ← hM]
    generalize ((signed s m : Int) : ℚ) = x
    generalize ((signed false 7036874417766400 : Int) : ℚ) = c
    have hne : (2 : ℚ) ^ E ≠ 0 := hpos.ne.symm
    generalize (2 : ℚ) ^ E = t at hne
    field_simp
    ring
  by_cases h0 : sum = 0
  · simp only [h0, if_true, Bool.false_and]
    exact inPercentRange_zero _ _
  · simp only [h0, if_false]
    have hnn : (0 : ℚ) ≤ (sum : ℚ) := by
      have : (0 : ℚ) ≤ (sum : ℚ) * (2 : ℚ) ^ E := by rw [hcast]; linarith
      exact nonneg_of_mul_nonneg_left this hpos
    have hnn' : 0 ≤ sum := by exact_mod_cast hnn
    have hlt : ¬ sum < 0 := by omega
    have hEn : E.toNat = 0 := by omega
    simp only [hlt, decide_False, hEn, pow_zero, mul_one]
    have hp : sum.natAbs ≤ 100 * 2 ^ (-E).toNat := by
      have h1 : (sum : ℚ) ≤ 100 * (2 : ℚ) ^ (-E) := by
        have : (sum : ℚ) * (2 : ℚ) ^ E ≤ 100 := by rw [hcast]; linarith
        rw [zpow_neg, ← div_eq_mul_inv, le_div_iff₀ hpos]
        exact this
      have h2 : (2 : ℚ) ^ (-E) = ((2 ^ (-E).toNat : Nat) : ℚ) := by
        push_cast
        rw [two_pow_toNat _ (by omega)]
      rw [h2] at h1
      have h3 : ((sum.natAbs : Int) : ℚ) ≤ ((100 * 2 ^ (-E).toNat : Nat) : ℚ) := by
        rw [Int.natAbs_of_nonneg hnn']
        push_cast
        push_cast at h1
        exact h1
      exact_mod_cast h3
    obtain ⟨n, k, hr, hb⟩ := round_le false sum.natAbs (2 ^ (-E).toNat) 100
      (Nat.one_le_two_pow) (by norm_num) hp
    rw [hr]
    exact inPercentRange_of_le n k (by exact_mod_cast hb)

/-- The two natural powers that stand for an integer power of two. -/
theorem two_pow_ratio (x : Int) :
    (2 : ℚ) ^ x.toNat = (2 : ℚ) ^ x * (2 : ℚ) ^ (-x).toNat := by
  by_cases h : 0 ≤ x
  · have h2 : (-x).toNat = 0 := by omega
    rw [h2, pow_zero, mul_one, two_pow_toNat _ h]
  · have h1 : x.toNat = 0 := by omega
    rw [h1, pow_zero, two_pow_toNat (-x) (by omega), ← zpow_add₀ (by norm_num)]
    simp

/-- A natural bound read off a rational one: `p * 2^x ≤ B` gives
`p * 2^x.toNat ≤ B * 2^(-x).toNat`. -/
theorem scaled_le (p B : Nat) (x : Int) (h : (p : ℚ) * (2 : ℚ) ^ x ≤ (B : ℚ)) :
    p * 2 ^ x.toNat ≤ B * 2 ^ (-x).toNat := by
  have hpos : (0 : ℚ) < (2 : ℚ) ^ (-x).toNat := by positivity
  have h1 : ((p * 2 ^ x.toNat : Nat) : ℚ) ≤ ((B * 2 ^ (-x).toNat : Nat) : ℚ) := by
    push_cast
    rw [two_pow_ratio x, ← mul_assoc]
    exact mul_le_mul_of_nonneg_right h hpos.le
  exact_mod_cast h1

/-- The quotient of two finite values `0 ≤ used ≤ total`, `0 < total`, times 100, is in
`[0, 100]`. -/
theorem ratio_inPercentRange (used total : F64) (h0 : le (ofNat 0) used = true)
    (h1 : le used total = true) (h2 : lt (ofNat 0) total = true)
    (hfin : total ≠ inf false) :
    inPercentRange (mul (div used total) (ofNat 100)) := by
  rw [ofNat_zero] at h0 h2
  rw [ofNat_hundred]
  cases total with
  | nan => cases used <;> simp [le] at h1
  | inf t =>
    cases t
    · exact absurd rfl hfin
    · simp [lt, le] at h2
  | fin st mt et =>
    cases used with
    | nan => simp [le] at h0
    | inf s => cases s <;> simp [le] at h0 h1
    | fin su mu eu =>
      simp only [lt, Bool.and_eq_true, Bool.not_eq_true', ← Bool.not_eq_true] at h2
      rw [le_fin_iff, le_fin_iff] at h2
      rw [le_fin_iff] at h0 h1
      obtain ⟨h2a, h2b⟩ := h2
      have hz : ((signed false 0 : Int) : ℚ) * (2 : ℚ) ^ (-1074 : Int) = 0 := by simp [signed]
      rw [hz] at h0 h2a h2b
      have hpt : (0 : ℚ) < (2 : ℚ) ^ et := by positivity
      have hpu : (0 : ℚ) < (2 : ℚ) ^ eu := by positivity
      have hp : (0 : ℚ) < ((signed st mt : Int) : ℚ) := by
        by_contra hc
        exact h2b (mul_nonpos_of_nonpos_of_nonneg (not_lt.mp hc) hpt.le)
      have hstf : st = false := by
        cases st
        · rfl
        · simp only [signed, if_true, Int.cast_neg, Int.cast_natCast] at hp
          have : (0 : ℚ) ≤ (mt : ℚ) := Nat.cast_nonneg _
          linarith
      subst hstf
      have hmt : mt ≠ 0 := by
        intro h
        rw [h] at hp
        simp [signed] at hp
      simp only [div, hmt, if_false, Bool.xor_false]
      by_cases hmu : mu = 0
      · subst hmu
        simp only [Nat.zero_mul, round, roundMag, if_true, mul, Nat.mul_zero, Nat.zero_mul,
          Bool.xor_false]
        exact inPercentRange_zero _ _
      · have hsu : su = false := by
          cases su
          · rfl
          · simp only [signed, if_true, Int.cast_neg, Int.cast_natCast] at h0
            have h3 : (0 : ℚ) < (mu : ℚ) := by
              have : 0 < mu := Nat.pos_of_ne_zero hmu
              exact_mod_cast this
            have h4 : (0 : ℚ) < (mu : ℚ) * (2 : ℚ) ^ eu := mul_pos h3 hpu
            linarith
        subst hsu
        simp only [signed, Bool.false_eq_true, if_false, Int.cast_natCast] at h1
        have hq : 1 ≤ mt * 2 ^ (et - eu).toNat :=
          Nat.mul_pos (Nat.pos_of_ne_zero hmt) (Nat.pos_of_ne_zero (by positivity))
        have hpq : mu * 2 ^ (eu - et).toNat ≤ 1 * (mt * 2 ^ (et - eu).toNat) := by
          have hx : (-(eu - et)).toNat = (et - eu).toNat := by congr 1; omega
          have hle : (mu : ℚ) * (2 : ℚ) ^ (eu - et) ≤ (mt : ℚ) := by
            rw [zpow_sub₀ (by norm_num), ← mul_div_assoc, div_le_iff₀ hpt]
            exact h1
          have h5 := scaled_le mu mt (eu - et) hle
          rw [hx] at h5
          omega
        obtain ⟨n, k, hr, hb⟩ := round_le false _ _ 1 hq (by norm_num) hpq
        rw [hr]
        simp only [mul, Bool.xor_false]
        have hp2 : n * 7036874417766400 * 2 ^ (k + (-46)).toNat ≤
            100 * 2 ^ (-(k + (-46))).toNat := by
          apply scaled_le
          have hM : (7036874417766400 : ℚ) * (2 : ℚ) ^ (-46 : Int) = 100 := by
            norm_num [zpow_neg]
          have hk : (0 : ℚ) ≤ (n : ℚ) * (2 : ℚ) ^ k := by positivity
          push_cast at hb ⊢
          rw [zpow_add₀ (by norm_num)]
          calc (n : ℚ) * 7036874417766400 * ((2 : ℚ) ^ k * (2 : ℚ) ^ (-46 : Int))
              = ((n : ℚ) * (2 : ℚ) ^ k) * (7036874417766400 * (2 : ℚ) ^ (-46 : Int)) := by ring
            _ = ((n : ℚ) * (2 : ℚ) ^ k) * 100 := by rw [hM]
            _ ≤ 1 * 100 := mul_le_mul_of_nonneg_right hb (by norm_num)
            _ = 100 := by norm_num
        obtain ⟨n2, k2, hr2, hb2⟩ := round_le false _ _ 100 (Nat.one_le_two_pow)
          (by norm_num) hp2
        rw [hr2]
        exact inPercentRange_of_le n2 k2 (by exact_mod_cast hb2)

end F64

set_option maxRecDepth 100000 in
set_option exponentiation.threshold 4096 in
/-- C10 fails as stated: with idle 120.0, used 9000 of total 8000 and Use% 150%,
`getUSEMetrics` returns metrics whose CPU, memory and disk utilizations are -20, 112.5
and 150, all outside `[0, 100]`; with total 0 and used 0 the memory utilization is NaN. -/
theorem utilization_out_of_range_counterexample :
    (∃ m, getUSEMetrics overRangeHost = .ok m ∧
      m.CPUUsage = F64.neg (F64.ofNat 20) ∧ m.MemoryUsage = F64.ofRatio 1125 10 ∧
      m.DiskUsage = F64.ofNat 150 ∧
      ¬ F64.inPercentRange m.CPUUsage ∧ ¬ F64.inPercentRange m.MemoryUsage ∧
      ¬ F64.inPercentRange m.DiskUsage) ∧
    (∃ m, getUSEMetrics zeroTotalHost = .ok m ∧ m.MemoryUsage = F64.nan ∧
      ¬ F64.inPercentRange m.MemoryUsage) :=
  ⟨⟨_, rfl, by decide, by decide, by decide, by decide, by decide, by decide⟩,
   ⟨_, rfl, by decide, by decide⟩⟩

/-- A CPU usage that `cpuOfLines` returns is 100 minus the number read before the `id`
label of a `%Cpu(s)` line. -/
theorem cpuOfLines_ok (w : World) (lines : List Str) (c : F64)
    (h : cpuOfLines w lines = .ok c) :
    ∃ line tok idle, line ∈ lines ∧ strings.Contains line "%Cpu(s)".toList = true ∧
      idleField (strings.Fields line) = some tok ∧ parseFloat w tok = .ok idle ∧
      c = F64.sub (F64.ofNat 100) idle := by
  induction lines with
  | nil => simp [cpuOfLines] at h
  | cons l rest ih =>
    unfold cpuOfLines at h
    by_cases hc : strings.Contains l "%Cpu(s)".toList = true
    · rw [if_pos hc] at h
      cases hf : idleField (strings.Fields l) with
      | none =>
        simp only [hf] at h
        obtain ⟨line, tok, idle, h1, h2⟩ := ih h
        exact ⟨line, tok, idle, List.mem_cons_of_mem _ h1, h2⟩
      | some tok =>
        simp only [hf] at h
        cases hp : parseFloat w tok with
        | ok idle =>
          rw [hp] at h
          simp only [Res.ok.injEq] at h
          exact ⟨l, tok, idle, List.mem_cons_self _ _, hc, hf, hp, h.symm⟩
        | err e => rw [hp] at h; simp at h
        | crash => rw [hp] at h; simp at h
    · rw [if_neg hc] at h
      obtain ⟨line, tok, idle, h1, h2⟩ := ih h
      exact ⟨line, tok, idle, List.mem_cons_of_mem _ h1, h2⟩

set_option maxRecDepth 100000 in
set_option exponentiation.threshold 4096 in
/-- C10 as amended: in every result of `getUSEMetrics`, `NetworkUsage` is 45.5, in
`[0, 100]`; `CPUUsage` is 100 minus the idle value read, in `[0, 100]` when that value
is; `MemoryUsage` is `used / total * 100` for the two values read, in `[0, 100]` when
`0 ≤ used ≤ total`, `0 < total` and `total` is finite; `DiskUsage` is the value read
from the `Use%` token, unchanged. None of them is clamped. -/
theorem utilization_in_range (w : World) (m : USEMetrics) (h : getUSEMetrics w = .ok m) :
    (m.NetworkUsage = F64.ofRatio 455 10 ∧ F64.inPercentRange m.NetworkUsage) ∧
    (∃ out line tok idle, w.output ["top", "-bn1"] = .ok out ∧
      line ∈ strings.SplitLines out ∧ strings.Contains line "%Cpu(s)".toList = true ∧
      idleField (strings.Fields line) = some tok ∧ parseFloat w tok = .ok idle ∧
      m.CPUUsage = F64.sub (F64.ofNat 100) idle ∧
      (F64.inPercentRange idle → F64.inPercentRange m.CPUUsage)) ∧
    (∃ out total used, w.output ["free"] = .ok out ∧
      parseFloat w ((strings.Fields ((strings.SplitLines out).getD 1 [])).getD 1 []) =
        .ok total ∧
      parseFloat w ((strings.Fields ((strings.SplitLines out).getD 1 [])).getD 2 []) =
        .ok used ∧
      m.MemoryUsage = F64.mul (F64.div used total) (F64.ofNat 100) ∧
      (F64.le (F64.ofNat 0) used = true → F64.le used total = true →
        F64.lt (F64.ofNat 0) total = true → total ≠ F64.inf false →
        F64.inPercentRange m.MemoryUsage)) ∧
    (∃ out, w.output ["df", "/"] = .ok out ∧
      parseFloat w (strings.TrimSuffix
        ((strings.Fields ((strings.SplitLines out).getD 1 [])).getD 4 []) "%".toList) =
        .ok m.DiskUsage) := by
  unfold getUSEMetrics at h
  cases h1 : getCPUUsage w <;> rw [h1] at h <;> simp only [reduceCtorEq] at h
  cases h2 : getMemoryUsage w <;> rw [h2] at h <;> simp only [reduceCtorEq] at h
  cases h3 : getDiskUsage w <;> rw [h3] at h <;> simp only [reduceCtorEq] at h
  cases h4 : getNetworkUsage w <;> rw [h4] at h <;> simp only [reduceCtorEq] at h
  cases h5 : checkAbnormalEvents w <;> rw [h5] at h <;> simp only [reduceCtorEq] at h
  simp only [Res.ok.injEq] at h
  subst h
  simp only [getNetworkUsage, Res.ok.injEq] at h4
  subst h4
  refine ⟨⟨rfl, ?_⟩, ?_, ?_, ?_⟩
  · show F64.inPercentRange (F64.ofRatio 455 10)
    decide
  · unfold getCPUUsage at h1
    cases ho : w.output ["top", "-bn1"] with
    | error e => rw [ho] at h1; simp at h1
    | ok out =>
      rw [ho] at h1
      obtain ⟨line, tok, idle, hl, hc, hf, hp, hv⟩ := cpuOfLines_ok w _ _ h1
      refine ⟨out, line, tok, idle, rfl, hl, hc, hf, hp, hv, ?_⟩
      intro hr
      show F64.inPercentRange _
      rw [hv]
      exact F64.sub_hundred_inPercentRange idle hr
  · unfold getMemoryUsage at h2
    cases ho : w.output ["free"] with
    | error e => rw [ho] at h2; simp at h2
    | ok out =>
      rw [ho] at h2
      simp only [] at h2
      split_ifs at h2
      cases ht : parseFloat w ((strings.Fields ((strings.SplitLines out).getD 1 [])).getD 1 [])
        with
      | err e => rw [ht] at h2; simp at h2
      | crash => rw [ht] at h2; simp at h2
      | ok total =>
        rw [ht] at h2
        cases hu : parseFloat w
          ((strings.Fields ((strings.SplitLines out).getD 1 [])).getD 2 []) with
        | err e => rw [hu] at h2; simp at h2
        | crash => rw [hu] at h2; simp at h2
        | ok used =>
          rw [hu] at h2
          simp only [Res.ok.injEq] at h2
          refine ⟨out, total, used, rfl, ht, hu, h2.symm, ?_⟩
          intro g0 g1 g2 g3
          show F64.inPercentRange _
          rw [← h2]
          exact F64.ratio_inPercentRange used total g0 g1 g2 g3
  · unfold getDiskUsage at h3
    cases ho : w.output ["df", "/"] with
    | error e => rw [ho] at h3; simp at h3
    | ok out =>
      rw [ho] at h3
      simp only [] at h3
      split_ifs at h3
      cases hd : parseFloat w (strings.TrimSuffix
        ((strings.Fields ((strings.SplitLines out).getD 1 [])).getD 4 []) "%".toList) with
      | err e => rw [hd] at h3; simp at h3
      | crash => rw [hd] at h3; simp at h3
      | ok usage =>
        rw [hd] at h3
        simp only [Res.ok.injEq] at h3
        subst h3
        exact ⟨out, rfl, hd⟩

set_option maxRecDepth 100000 in
set_option exponentiation.threshold 4096 in
/-- Witness of the amended C10 on the recorded host, whose four utilizations 18, 25, 45
and 45.5 are in `[0, 100]`. -/
theorem utilization_in_range_witness :
    getUSEMetrics recordedHost = .ok recordedMetrics ∧
    (recordedMetrics.NetworkUsage = F64.ofRatio 455 10 ∧
      F64.inPercentRange recordedMetrics.NetworkUsage) ∧
    recordedMetrics.CPUUsage = F64.sub (F64.ofNat 100) (F64.ofNat 82) ∧
    F64.inPercentRange (F64.ofNat 82) ∧ F64.inPercentRange recordedMetrics.CPUUsage ∧
    F64.inPercentRange recordedMetrics.MemoryUsage ∧
    F64.inPercentRange recordedMetrics.DiskUsage :=
  ⟨by decide, (utilization_in_range recordedHost recordedMetrics (by decide)).1,
    by decide, by decide, by decide, by decide, by decide⟩

set_option maxRecDepth 100000 in
/-- C11 fails as stated: `dpkg -l` printing `L = 3` newline-terminated lines gives
`3 packages installed`, not `2 packages installed`. -/
theorem getSoftwareInfo_counterexample :
    debianHost.output ["dpkg", "-l"] = .ok (newlineTerminated packageListing) ∧
    packageListing.length = 3 ∧
    getSoftwareInfo debianHost = .ok "3 packages installed".toList ∧
    getSoftwareInfo debianHost ≠ .ok "2 packages installed".toList := by
  refine ⟨by decide, by decide, by decide, by decide⟩

/-- The text `getSoftwareInfo` makes of a listing of newline-terminated lines. -/
theorem packages_of_listing (ls : List Str) (h : ∀ l ∈ ls, '\n' ∉ l) :
    fmtInt ((strings.SplitLines (newlineTerminated ls)).length - 1) ++
        " packages installed".toList =
      fmtInt ls.length ++ " packages installed".toList := by
  rw [SplitLines_newlineTerminated ls h, Nat.add_sub_cancel]

/-- C11 as amended: `getSoftwareInfo` chooses the package manager in the order dpkg, rpm,
pacman; when the listing of the chosen manager succeeds and consists of `L`
newline-terminated lines, the result is the text `L packages installed`, the number of
lines of the listing with no header line taken off; when none of the three managers is
found the result is `Unknown package manager`; there is never an error. -/
theorem getSoftwareInfo_counts_lines (w : World) :
    (∀ ls, (∀ l ∈ ls, '\n' ∉ l) → w.lookPath "dpkg" = true →
      w.output ["dpkg", "-l"] = .ok (newlineTerminated ls) →
      getSoftwareInfo w = .ok (fmtInt ls.length ++ " packages installed".toList)) ∧
    (∀ ls, (∀ l ∈ ls, '\n' ∉ l) → w.lookPath "dpkg" = false → w.lookPath "rpm" = true →
      w.output ["rpm", "-qa"] = .ok (newlineTerminated ls) →
      getSoftwareInfo w = .ok (fmtInt ls.length ++ " packages installed".toList)) ∧
    (∀ ls, (∀ l ∈ ls, '\n' ∉ l) → w.lookPath "dpkg" = false → w.lookPath "rpm" = false →
      w.lookPath "pacman" = true →
      w.output ["pacman", "-Q"] = .ok (newlineTerminated ls) →
      getSoftwareInfo w = .ok (fmtInt ls.length ++ " packages installed".toList)) ∧
    (w.lookPath "dpkg" = false → w.lookPath "rpm" = false → w.lookPath "pacman" = false →
      getSoftwareInfo w = .ok "Unknown package manager".toList) ∧
    (∀ e, getSoftwareInfo w ≠ .err e) := by
  refine ⟨?_, ?_, ?_, ?_, ?_⟩
  · intro ls hl hd ho
    simp only [getSoftwareInfo, hd, if_true, ho, packages_of_listing ls hl]
  · intro ls hl hd hr ho
    simp only [getSoftwareInfo, hd, hr, if_true, Bool.false_eq_true, if_false, ho,
      packages_of_listing ls hl]
  · intro ls hl hd hr hp ho
    simp only [getSoftwareInfo, hd, hr, hp, if_true, Bool.false_eq_true, if_false, ho,
      packages_of_listing ls hl]
  · intro hd hr hp
    simp only [getSoftwareInfo, hd, hr, hp, Bool.false_eq_true, if_false]
  · intro e
    unfold getSoftwareInfo
    simp only []
    split
    · simp
    · split <;> simp

set_option maxRecDepth 100000 in
/-- Witness of the amended C11: with `dpkg` and `rpm` both installed, the three lines
of `dpkg -l` give `3 packages installed`; with no manager installed the result is
`Unknown package manager`. -/
theorem getSoftwareInfo_counts_lines_witness :
    getSoftwareInfo debianHost = .ok "3 packages installed".toList ∧
    getSoftwareInfo recordedHost = .ok "Unknown package manager".toList := by
  constructor
  · rw [(getSoftwareInfo_counts_lines debianHost).1 packageListing (by decide) (by decide)
      (by decide)]
    decide
  · exact (getSoftwareInfo_counts_lines recordedHost).2.2.2.1 (by decide) (by decide)
      (by decide)

/-- A text without a newline splits into the single segment that it is. -/
theorem SplitLines_no_newline (s : Str) (h : '\n' ∉ s) : strings.SplitLines s = [s] := by
  induction s with
  | nil => rfl
  | cons c s ih =>
    have hc : c ≠ '\n' := fun hc => h (by simp [hc])
    have hs : '\n' ∉ s := fun hs => h (List.mem_cons_of_mem _ hs)
    simp only [strings.SplitLines, hc, if_false, ih hs]

/-- C12 fails on the code: when the CPU, memory and disk probes succeed and the memory
or the disk text has no newline (an empty text, or a single unterminated line),
`getHardwareInfo` indexes a line that is not there and panics, and both detectors
crash in the basic-information collector instead of reporting `Unknown`. -/
theorem getHardwareInfo_short_output_crashes (w : World) (cpuInfo memInfo diskInfo : Str)
    (hcpu : w.output ["lscpu"] = .ok cpuInfo)
    (hmem : w.output ["free", "-h"] = .ok memInfo)
    (hdisk : w.output ["df", "-h"] = .ok diskInfo)
    (hshort : '\n' ∉ memInfo ∨ '\n' ∉ diskInfo) :
    getHardwareInfo w = .crash ∧
    QuickDetector.Detect w = { result := .crash, ran := [.basicInfo] } ∧
    MoreDetector.Detect w = { result := .crash, ran := [.basicInfo] } := by
  have hc : getHardwareInfo w = .crash := by
    simp only [getHardwareInfo, hcpu, hmem, hdisk]
    rcases hshort with h | h
    · rw [SplitLines_no_newline memInfo h]
      cases (strings.SplitLines cpuInfo)[0]? <;> rfl
    · rw [SplitLines_no_newline diskInfo h]
      cases (strings.SplitLines cpuInfo)[0]? <;>
        cases (strings.SplitLines memInfo)[1]? <;> rfl
  have hb : getBasicInfo w = .crash := by simp only [getBasicInfo, hc]
  refine ⟨hc, ?_, ?_⟩
  · rw [quick_run, hb]
  · rw [more_run, hb]

set_option maxRecDepth 100000 in
/-- Witness of C12: with a `free -h` that prints nothing, `getHardwareInfo` panics and
a quick detection crashes; with two-line outputs it returns its summary. -/
theorem getHardwareInfo_short_output_crashes_witness :
    getHardwareInfo silentFreeHost = .crash ∧
    QuickDetector.Detect silentFreeHost = { result := .crash, ran := [.basicInfo] } ∧
    MoreDetector.Detect silentFreeHost = { result := .crash, ran := [.basicInfo] } ∧
    getHardwareInfo hardwareHost =
      .ok ("CPU: Architecture: x86_64, Memory: Mem:   7.8Gi 2.0Gi 5.8Gi, " ++
        "Disk: /dev/sda1 100G 45G 55G 45% /").toList := by
  have h := getHardwareInfo_short_output_crashes silentFreeHost
    "Architecture: x86_64\nCPU(s): 4\n".toList []
    ("Filesystem Size Used Avail Use% Mounted on\n" ++ "/dev/sda1 100G 45G 55G 45% /\n").toList
    (by decide) (by decide) (by decide) (Or.inl (by decide))
  exact ⟨h.1, h.2.1, h.2.2, by decide⟩

set_option maxRecDepth 100000 in
set_option exponentiation.threshold 4096 in
/-- C13 fails on the code: in the column format of `top`, an idle value of 100.0 is
printed as `ni,100.0 id,`, the field before the `id` label is `ni,100.0`, its number
does not parse, and `getCPUUsage` returns the scan error, which aborts a quick
detection; for idle values below 100 (0.0, 82.0, 99.9) the function returns 100 minus
the idle value. -/
theorem getCPUUsage_fully_idle_fails :
    renderTenths 1000 = "100.0".toList ∧
    idleField (strings.Fields
      ("%Cpu(s):  0.0 us,  0.0 sy,  0.0 ni,100.0 id,  0.0 wa,  0.0 hi,  0.0 si,  0.0 st").toList)
      = some "ni,100.0".toList ∧
    floatToken "ni,100.0".toList = "ni".toList ∧
    getCPUUsage (idleHost 1000) = .err .scan ∧
    QuickDetector.Detect (idleHost 1000) =
      { result := .err .scan, ran := [.basicInfo, .useMetrics] } ∧
    getCPUUsage (idleHost 0) = .ok (F64.ofNat 100) ∧
    getCPUUsage (idleHost 820) = .ok (F64.ofNat 18) ∧
    getCPUUsage (idleHost 999) = .ok (F64.sub (F64.ofNat 100) (F64.ofRatio 999 10)) := by
  refine ⟨by decide, by decide, by decide, by decide, by decide, by decide, by decide,
    by decide⟩

/-- The body of `strings.Fields` on a non-empty text. -/
theorem Fields_cons (c : Char) (cs : Str) :
    strings.Fields (c :: cs) =
      if strings.isSpace c then strings.Fields cs
      else
        match cs with
        | [] => [[c]]
        | d :: _ =>
          if strings.isSpace d then [c] :: strings.Fields cs
          else
            match strings.Fields cs with
            | [] => [[c]]
            | f :: fs => (c :: f) :: fs := by
  cases cs <;> rfl

/-- Leading spaces do not start a field. -/
theorem Fields_spaces (n : Nat) (rest : Str) :
    strings.Fields (List.replicate n ' ' ++ rest) = strings.Fields rest := by
  induction n with
  | zero => rfl
  | succ n ih =>
    show strings.Fields (' ' :: (List.replicate n ' ' ++ rest)) = _
    rw [Fields_cons]
    simp only [show strings.isSpace ' ' = true from by decide, if_true]
    exact ih

/-- A column value followed by a space is the first field. -/
theorem Fields_column_space (t rest : Str) (ht : isColumn t) :
    strings.Fields (t ++ ' ' :: rest) = t :: strings.Fields rest := by
  obtain ⟨hne, hsp⟩ := ht
  induction t with
  | nil => exact absurd rfl hne
  | cons c t ih =>
    have hc : strings.isSpace c = false := hsp c (List.mem_cons_self _ _)
    cases t with
    | nil =>
      show strings.Fields (c :: ' ' :: rest) = _
      rw [Fields_cons]
      simp only [hc, Bool.false_eq_true, if_false,
        show strings.isSpace ' ' = true from by decide, if_true]
      rw [Fields_cons]
      simp only [show strings.isSpace ' ' = true from by decide, if_true]
    | cons d t =>
      have hd : strings.isSpace d = false :=
        hsp d (List.mem_cons_of_mem _ (List.mem_cons_self _ _))
      have ih2 := ih (by simp) (fun x hx => hsp x (List.mem_cons_of_mem _ hx))
      show strings.Fields (c :: d :: (t ++ ' ' :: rest)) = _
      rw [Fields_cons]
      simp only [hc, hd, Bool.false_eq_true, if_false]
      rw [show d :: (t ++ ' ' :: rest) = (d :: t) ++ ' ' :: rest from rfl, ih2]

/-- A column value alone is the only field. -/
theorem Fields_column (t : Str) (ht : isColumn t) : strings.Fields t = [t] := by
  obtain ⟨hne, hsp⟩ := ht
  induction t with
  | nil => exact absurd rfl hne
  | cons c t ih =>
    have hc : strings.isSpace c = false := hsp c (List.mem_cons_self _ _)
    cases t with
    | nil =>
      rw [Fields_cons]
      simp only [hc, Bool.false_eq_true, if_false]
    | cons d t =>
      have hd : strings.isSpace d = false :=
        hsp d (List.mem_cons_of_mem _ (List.mem_cons_self _ _))
      have ih2 := ih (by simp) (fun x hx => hsp x (List.mem_cons_of_mem _ hx))
      rw [Fields_cons]
      simp only [hc, hd, Bool.false_eq_true, if_false, ih2]

/-- A column value followed by a column gap is the first field. -/
theorem Fields_column_gap (t rest : Str) (n : Nat) (ht : isColumn t) :
    strings.Fields (t ++ (columnGap n ++ rest)) = t :: strings.Fields rest := by
  show strings.Fields (t ++ ' ' :: (List.replicate n ' ' ++ rest)) = _
  rw [Fields_column_space t _ ht, Fields_spaces]

/-- The fields of a row are its six columns. -/
theorem Fields_row (r : SsRow) (h : r.wellFormed) :
    strings.Fields r.text =
      [r.netid, r.state, r.recvQ, r.sendQ, r.localAddr, r.peerAddr] := by
  obtain ⟨h1, h2, h3, h4, h5, h6, -⟩ := h
  unfold SsRow.text
  rw [Fields_column_gap _ _ _ h1, Fields_column_gap _ _ _ h2, Fields_column_gap _ _ _ h3,
    Fields_column_gap _ _ _ h4, Fields_column_gap _ _ _ h5, Fields_column _ h6]

/-- A text contains what stands in its middle. -/
theorem Contains_middle (a sub b : Str) : strings.Contains (a ++ (sub ++ b)) sub = true := by
  induction a with
  | nil =>
    show strings.Contains (sub ++ b) sub = true
    cases hs : sub ++ b with
    | nil =>
      have : sub = [] := (List.append_eq_nil.mp hs).1
      simp [strings.Contains, this]
    | cons c cs =>
      rw [strings.Contains, ← hs]
      have : sub.isPrefixOf (sub ++ b) = true :=
        List.isPrefixOf_iff_prefix.mpr (List.prefix_append _ _)
      simp [this]
  | cons c a ih =>
    show strings.Contains (c :: (a ++ (sub ++ b))) sub = true
    rw [strings.Contains, ih]
    simp

/-- The segments of a text of newline-terminated lines: the lines and a final empty one. -/
theorem SplitLines_newlineTerminated_eq (ls : List Str) (h : ∀ l ∈ ls, '\n' ∉ l) :
    strings.SplitLines (newlineTerminated ls) = ls ++ [[]] := by
  induction ls with
  | nil => rfl
  | cons l ls ih =>
    simp only [newlineTerminated, SplitLines_line l _ (h l (List.mem_cons_self _ _)),
      ih (fun x hx => h x (List.mem_cons_of_mem _ hx)), List.cons_append]

/-- A column value has no newline. -/
theorem isColumn_no_newline (t : Str) (h : isColumn t) : '\n' ∉ t := by
  intro hn
  have := h.2 _ hn
  revert this
  decide

/-- A column gap has no newline. -/
theorem columnGap_no_newline (n : Nat) : '\n' ∉ columnGap n := by
  intro hn
  simp only [columnGap, List.mem_cons, List.mem_replicate] at hn
  rcases hn with hn | ⟨-, hn⟩ <;> exact absurd hn (by decide)

/-- The text of a row has no newline. -/
theorem row_no_newline (r : SsRow) (h : r.wellFormed) : '\n' ∉ r.text := by
  obtain ⟨h1, h2, h3, h4, h5, h6, -⟩ := h
  intro hn
  simp only [SsRow.text, List.mem_append] at hn
  rcases hn with hn | hn | hn | hn | hn | hn | hn | hn | hn | hn | hn
  · exact isColumn_no_newline _ h1 hn
  · exact columnGap_no_newline _ hn
  · exact isColumn_no_newline _ h2 hn
  · exact columnGap_no_newline _ hn
  · exact isColumn_no_newline _ h3 hn
  · exact columnGap_no_newline _ hn
  · exact isColumn_no_newline _ h4 hn
  · exact columnGap_no_newline _ hn
  · exact isColumn_no_newline _ h5 hn
  · exact columnGap_no_newline _ hn
  · exact isColumn_no_newline _ h6 hn

/-- The body of the loop of `getOpenPorts`. -/
theorem portsOfLines_cons (line : Str) (rest : List Str) :
    portsOfLines (line :: rest) =
      if strings.Contains line "LISTEN".toList then
        match (strings.Fields line)[3]? with
        | some field => field :: portsOfLines rest
        | none => portsOfLines rest
      else portsOfLines rest := rfl

/-- The loop of `getOpenPorts` on rows of `ss -tuln`: the fourth column, Send-Q, of
each row whose state is `LISTEN`. -/
theorem portsOfLines_rows (rows : List SsRow) (h : ∀ r ∈ rows, r.wellFormed) :
    portsOfLines (rows.map SsRow.text ++ [[]]) =
      (rows.filter (fun r => decide (r.state = "LISTEN".toList))).map (fun r => r.sendQ) := by
  induction rows with
  | nil => decide
  | cons r rows ih =>
    have hr := h r (List.mem_cons_self _ _)
    have ih2 := ih (fun x hx => h x (List.mem_cons_of_mem _ hx))
    rw [List.map_cons, List.cons_append, portsOfLines_cons]
    by_cases hs : r.state = "LISTEN".toList
    · have hc : strings.Contains r.text "LISTEN".toList = true := by
        unfold SsRow.text
        rw [hs, ← List.append_assoc]
        exact Contains_middle _ _ _
      rw [if_pos hc, Fields_row r hr, ih2, List.filter_cons, if_pos (decide_eq_true hs)]
      rfl
    · have hc := hr.2.2.2.2.2.2 hs
      have hd : ¬ decide (r.state = "LISTEN".toList) = true := by
        rw [decide_eq_true_eq]; exact hs
      rw [hc, if_neg (by decide), ih2, List.filter_cons, if_neg hd]

set_option maxRecDepth 100000 in
/-- C14 fails on the code: for every successful output of `ss -tuln` made of the header
line and rows of six space-separated columns (Netid, State, Recv-Q, Send-Q, Local
Address:Port, Peer Address:Port), `getOpenPorts` returns, for the rows whose state is
`LISTEN`, in order, the fourth column, which is Send-Q, and not the fifth, Local
Address:Port. -/
theorem getOpenPorts_ss_sendQ (w : World) (rows : List SsRow)
    (hrows : ∀ r ∈ rows, r.wellFormed)
    (hout : w.output ["ss", "-tuln"] = .ok (ssOutput rows)) :
    getOpenPorts w =
      .ok ((rows.filter (fun r => decide (r.state = "LISTEN".toList))).map
        (fun r => r.sendQ)) := by
  simp only [getOpenPorts, hout, ssOutput]
  rw [SplitLines_line ssHeader _ (by decide),
    SplitLines_newlineTerminated_eq _ (by
      intro l hl
      obtain ⟨r, hr, rfl⟩ := List.mem_map.mp hl
      exact row_no_newline r (hrows r hr))]
  have hh : strings.Contains ssHeader "LISTEN".toList = false := by decide
  rw [portsOfLines_cons, hh, portsOfLines_rows rows hrows]
  simp

set_option maxRecDepth 100000 in
/-- Witness of C14: the row `tcp LISTEN 0 128 0.0.0.0:22 0.0.0.0:*` yields `128`, not
`0.0.0.0:22`, also after a UDP row; the same socket reported by the fallback
`netstat -tuln` yields `0.0.0.0:22`. -/
theorem getOpenPorts_ss_sendQ_witness :
    ssText = ssOutput [sshRow] ∧
    getOpenPorts recordedHost = .ok ["128".toList] ∧
    getOpenPorts twoSocketHost = .ok ["128".toList] ∧
    getOpenPorts twoSocketHost ≠ .ok ["0.0.0.0:22".toList] ∧
    getOpenPorts netstatHost = .ok ["0.0.0.0:22".toList] := by
  have hw : ∀ r ∈ [ntpRow, sshRow], r.wellFormed := by
    intro r hr
    simp only [List.mem_cons, List.mem_singleton, List.not_mem_nil, or_false] at hr
    rcases hr with rfl | rfl <;> (unfold SsRow.wellFormed isColumn; decide)
  have h := getOpenPorts_ss_sendQ twoSocketHost [ntpRow, sshRow] hw (by decide)
  refine ⟨by decide, by decide, ?_, ?_, by decide⟩
  · rw [h]; decide
  · rw [h]; decide

/-- C15 fails on the code: a report returned by either detector has its `Type` set to
the detection kind, but its `Timestamp` is the zero time value, whatever the clock of
the host reads: `Detect` never assigns the field. -/
theorem report_timestamp_zero (w : World) :
    (∀ r, (QuickDetector.Detect w).result = .ok r →
      r.Timestamp = 0 ∧ r.ReportType = "Quick Detection".toList) ∧
    (∀ r, (MoreDetector.Detect w).result = .ok r →
      r.Timestamp = 0 ∧ r.ReportType = "More Detection".toList) := by
  constructor
  · intro r hr
    rw [quick_run] at hr
    cases h1 : getBasicInfo w <;> rw [h1] at hr <;> simp only [reduceCtorEq] at hr
    cases h2 : getUSEMetrics w <;> rw [h2] at hr <;> simp only [reduceCtorEq] at hr
    cases h3 : checkFileIntegrity w <;> rw [h3] at hr <;> simp only [reduceCtorEq] at hr
    simp only [Res.ok.injEq] at hr
    subst hr
    exact ⟨rfl, rfl⟩
  · intro r hr
    rw [more_run] at hr
    cases h1 : getBasicInfo w <;> rw [h1] at hr <;> simp only [reduceCtorEq] at hr
    cases h2 : getUSEMetrics w <;> rw [h2] at hr <;> simp only [reduceCtorEq] at hr
    cases h3 : checkFileIntegrity w <;> rw [h3] at hr <;> simp only [reduceCtorEq] at hr
    cases h4 : getRunningAssets w <;> rw [h4] at hr <;> simp only [reduceCtorEq] at hr
    cases h5 : checkNetworkStatus w <;> rw [h5] at hr <;> simp only [reduceCtorEq] at hr
    simp only [Res.ok.injEq] at hr
    subst hr
    exact ⟨rfl, rfl⟩

set_option maxRecDepth 100000 in
/-- Witness of C15: on the recorded host, whose clock never reads the zero time, both
detectors return a report whose `Timestamp` is the zero time. -/
theorem report_timestamp_zero_witness :
    (∀ i, recordedHost.now i ≠ 0) ∧
    (QuickDetector.Detect recordedHost).result = .ok recordedQuick ∧
    (recordedQuick.Timestamp = 0 ∧ recordedQuick.ReportType = "Quick Detection".toList) ∧
    (MoreDetector.Detect recordedHost).result = .ok recordedMore ∧
    (recordedMore.Timestamp = 0 ∧ recordedMore.ReportType = "More Detection".toList) :=
  ⟨fun i => by simp [recordedHost], by decide,
    (report_timestamp_zero recordedHost).1 recordedQuick (by decide), by decide,
    (report_timestamp_zero recordedHost).2 recordedMore (by decide)⟩

end DetectServer
